import Mathlib

/-!
Verification development for the scout SDS crawler (src/scout.py, src/main.py).

The pipeline is embedded shallowly: the external collaborators (the search
engine, the HTTP HEAD and GET requests and the PDF text extractor) are
modelled as an oracle structure Env, and the process-wide mutable globals
(URL_VISIT_COUNT, DOMAIN_VISIT_COUNT, DOWNLOADED_FILES_COUNT and the file
system folders) are threaded as an explicit ScoutState.  Each network-visible
action of a run is recorded in a trace of Events so that temporal claims can
be stated over traces.
-/

namespace Scout

/-! ### String utilities (embedding Python str operations over Char lists) -/

/-- Embeds the Python substring test needle in hay via prefix positions. -/
def listContains (needle hay : List Char) : Bool :=
  (List.range (hay.length + 1)).any (fun i => needle.isPrefixOf (hay.drop i))

/-- Embeds Python in for strings: strContains hay needle is true iff needle
occurs contiguously in hay. -/
def strContains (hay needle : String) : Bool :=
  listContains needle.data hay.data

/-- Embeds Python str.endswith. -/
def strEndsWith (s suf : String) : Bool :=
  suf.data.isSuffixOf s.data

/-- Embeds Python url.split sep with sep a slash, keeping only the last
component: the characters after the last slash (the whole string if there is
no slash). -/
def lastSegment (l : List Char) : List Char :=
  (l.reverse.takeWhile (fun c => c != '/')).reverse

/-! ### urlparse model (Python urllib.parse.urlparse, scheme and netloc) -/

/-- Characters allowed in a URL scheme, from urllib.parse scheme chars. -/
def schemeChar (c : Char) : Bool :=
  c.isAlphanum || c == '+' || c == '-' || c == '.'

/-- Embeds the scheme-stripping step of urlparse: if the first colon is
preceded by a nonempty run of scheme characters starting with a letter, the
scheme and the colon are removed. -/
def dropScheme (l : List Char) : List Char :=
  match l.findIdx? (fun c => c == ':') with
  | none => l
  | some i =>
    if decide (0 < i) && (match l with | c :: _ => c.isAlpha | [] => false)
        && (l.take i).all schemeChar then
      l.drop (i + 1)
    else l

/-- Characters that terminate the netloc component. -/
def netDelim (c : Char) : Bool :=
  c == '/' || c == '?' || c == '#'

/-- Embeds urlparse(url).netloc: after stripping the scheme, a leading double
slash introduces the network location, which extends to the next slash,
question mark or hash; otherwise the netloc is empty. -/
def netlocOf (url : String) : String :=
  match dropScheme url.data with
  | '/' :: '/' :: r => String.mk (r.takeWhile (fun c => !netDelim c))
  | _ => ""

/-- Embeds urlparse(url).path: what remains after the scheme and netloc, up
to the query or fragment.  Used only to state the prober claim the way the
spec words it (the code itself never computes a path). -/
def pathOf (url : String) : String :=
  let rest := dropScheme url.data
  let r2 :=
    match rest with
    | '/' :: '/' :: r => r.dropWhile (fun c => !netDelim c)
    | _ => rest
  String.mk (r2.takeWhile (fun c => !(c == '?' || c == '#')))

/-! ### Constants from scout.py -/

/-- Embeds MAX_URL_VISITS. -/
def MAX_URL_VISITS : Nat := 5

/-- Embeds MAX_DOMAIN_VISITS. -/
def MAX_DOMAIN_VISITS : Nat := 5

/-- Embeds DOWNLOAD_LIMIT. -/
def DOWNLOAD_LIMIT : Nat := 5

/-- Embeds the PDFS_FOLDER directory for verified documents. -/
def PDFS_FOLDER : String := "verified"

/-- Embeds the TEMP_FOLDER directory for unverified downloads. -/
def TEMP_FOLDER : String := "unverified"

/-- Embeds the SKIP_URLS denylist of scout.py verbatim (a Python set; order
is irrelevant because it is only consumed through an any-quantifier). -/
def SKIP_URLS : List String := [
  "guidechem", "chemicalbook", "commonchemistry", "alpha-chemistry", "lookchem",
  "home", "pharmaffiliates", "login", "privacy", "linkedin", "twitter", "x.com",
  "facebook", "youtube", "support", "contact", "food", "chemicalbook.com",
  "guidechem.com", "pharmaffiliates.com", "benjaminmoore.com", "wikipedia",
  "imdb", "amazon", "ebay", "craigslist", "pinterest", "instagram", "tumblr",
  "reddit", "snapchat", "tiktok", "nytimes", "huffingtonpost", "forbes",
  "bloomberg", "bbc", "cnn", "foxnews", "nbcnews", "abcnews", "theguardian",
  "dailymail", "usatoday", "quora", "stackexchange", "stackoverflow", "tripadvisor",
  "yelp", "zomato", "opentable", "healthline", "webmd", "mayoclinic", "nih.gov",
  "cdc.gov", "fda.gov", "epa.gov", "google", "bing", "yahoo", "ask", "aol", "baidu",
  "msn", "duckduckgo", "yandex", "coursera", "udemy", "edx", "khanacademy",
  "linkedin.com", "twitter.com", "facebook.com", "youtube.com", "instagram.com",
  "tumblr.com", "reddit.com", "snapchat.com", "tiktok.com", "nytimes.com",
  "huffingtonpost.com", "forbes.com", "bloomberg.com", "bbc.com", "cnn.com",
  "foxnews.com", "nbcnews.com", "abcnews.com", "theguardian.com", "dailymail.co.uk",
  "usatoday.com", "quora.com", "stackexchange.com", "stackoverflow.com",
  "tripadvisor.com", "yelp.com", "zomato.com", "opentable.com", "healthline.com",
  "webmd.com", "mayoclinic.org", "google.com", "bing.com", "yahoo.com", "ask.com",
  "aol.com", "baidu.com", "msn.com", "duckduckgo.com", "yandex.com", "coursera.org",
  "udemy.com", "edx.org", "register", "signup", "signin", "faq", "terms",
  "conditions", "terms-of-service", "help", "about", "my-account", "favourites",
  "bulkOrder", "cart", "scribd"]

/-- Embeds the skip test of download_and_verify_pdfs: any skip word occurring
in the parsed domain or anywhere in the full URL rejects the candidate. -/
def skipMatch (url : String) : Bool :=
  SKIP_URLS.any (fun w => strContains (netlocOf url) w)
    || SKIP_URLS.any (fun w => strContains url w)

/-! ### The verifier (set_pattern / verify_pdf) -/

/-- Embeds the regex word class for the word-boundary anchors of set_pattern
(ASCII fragment of the Python re word class). -/
def isWordChar (c : Char) : Bool :=
  c.isAlphanum || c == '_'

/-- True when position i of the text holds a word character. -/
def charAtIsWord (text : List Char) (i : Nat) : Bool :=
  match text.get? i with
  | some c => isWordChar c
  | none => false

/-- Embeds a regex word boundary at position p of the text: exactly one of
the character before p and the character at p is a word character. -/
def boundaryAt (text : List Char) (p : Nat) : Bool :=
  (if p = 0 then false else charAtIsWord text (p - 1)) != charAtIsWord text p

/-- Case-insensitive equality of character lists (re.IGNORECASE on the
escaped literal pattern). -/
def eqCI : List Char → List Char → Bool
  | [], [] => true
  | a :: as, b :: bs => (a.toLower == b.toLower) && eqCI as bs
  | _, _ => false

/-- The pattern built by set_pattern matches the text at position i: the
literal sequence occurs there case-insensitively, framed by word boundaries. -/
def wordMatchAt (text pat : List Char) (i : Nat) : Bool :=
  eqCI ((text.drop i).take pat.length) pat
    && boundaryAt text i && boundaryAt text (i + pat.length)

/-- Embeds set_pattern(pat).search(text) being a hit: some position of the
text carries a whole-word case-insensitive occurrence of the literal pattern. -/
def wordSearch (pat text : String) : Bool :=
  (List.range (text.data.length + 1)).any (fun i => wordMatchAt text.data pat.data i)

/-- Embeds Python truthiness of an optional string argument. -/
def truthyS : Option String → Bool
  | none => false
  | some s => s != ""

/-- Embeds the pattern list built by verify_pdf: the mandatory phrase, then
the CAS number if truthy, then the name if truthy. -/
def requiredPatterns (cas name : Option String) : List String :=
  ["safety data sheet"]
    ++ (if truthyS cas then [cas.getD ""] else [])
    ++ (if truthyS name then [name.getD ""] else [])

/-- Embeds the all-patterns conjunction of verify_pdf over extracted text. -/
def verifyText (text : String) (cas name : Option String) : Bool :=
  (requiredPatterns cas name).all (fun p => wordSearch p text)

/-! ### Oracles for the external collaborators -/

/-- Outcome of the requests.head call inside is_pdf: a transport error or
timeout, or a response carrying an optional content-type header. -/
inductive HeadResult where
  | err : HeadResult
  | ok : Option String → HeadResult
  deriving Repr, DecidableEq

/-- Outcome of the aiohttp session.get call inside download_pdf.  err is any
failure before the body is touched: timeout or connection failure while
issuing the request, or a non-2xx status raised by raise_for_status.  ok
carries the optional content-type header together with a flag telling whether
the later await of response.read() completes; the source opens the temporary
file before that await, so a failing body read still leaves the file behind. -/
inductive GetResult where
  | err : GetResult
  | ok : Option String → Bool → GetResult
  deriving Repr, DecidableEq

/-- Oracle for the external collaborators: the search engine (query to
ordered URL results), the HEAD probe, the GET fetch, and the text extractor
keyed by the downloaded file path (None models extraction failure). -/
structure Env where
  searchResults : String → List String
  head : String → HeadResult
  get : String → GetResult
  extract : String → Option String

/-- Embeds is_pdf: true when the full URL string ends with the pdf suffix,
else true exactly when the HEAD response declares content-type
application/pdf; every error path returns false. -/
def is_pdf (env : Env) (url : String) : Bool :=
  if strEndsWith url ".pdf" then true
  else
    match env.head url with
    | HeadResult.ok ct => ct == some "application/pdf"
    | HeadResult.err => false

/-- Modelled from the spec: the prober as claim C8 words it, with the fast
path testing the URL path component rather than the full URL string; kept
separate so the embedded is_pdf can be compared against the spec wording. -/
def looksLikePdfSpec (env : Env) (url : String) : Bool :=
  if strEndsWith (pathOf url) ".pdf" then true
  else
    match env.head url with
    | HeadResult.ok ct => ct == some "application/pdf"
    | HeadResult.err => false

/-! ### Dictionaries (Python dict with get-default-zero access) -/

/-- Embeds d.get(k, 0) for the visit-count dictionaries. -/
def lookupCount : List (String × Nat) → String → Nat
  | [], _ => 0
  | (k', v) :: rest, k => if k' = k then v else lookupCount rest k

/-- Embeds the Python membership test k in d. -/
def dictMem : List (String × Nat) → String → Bool
  | [], _ => false
  | (k', _) :: rest, k => k' == k || dictMem rest k

/-- Embeds the Python assignment d[k] = v. -/
def setCount : List (String × Nat) → String → Nat → List (String × Nat)
  | [], k, v => [(k, v)]
  | (k', v') :: rest, k, v =>
    if k' = k then (k, v) :: rest else (k', v') :: setCount rest k v

/-- Adds a file name to a folder listing, modelling that writing an existing
name overwrites in place. -/
def addFile (l : List String) (f : String) : List String :=
  if l.contains f then l else f :: l

/-! ### Process state and run events -/

/-- The process-wide mutable state of scout.py: the two visit-count
dictionaries, the global download counter, and the listings of the temporary
and persistent folders. -/
structure ScoutState where
  urlVisits : List (String × Nat)
  domainVisits : List (String × Nat)
  downloadedCount : Nat
  tempFiles : List String
  savedFiles : List String
  deriving Repr, DecidableEq

/-- The state at process start: empty dictionaries, zero downloads. -/
def initState : ScoutState := ⟨[], [], 0, [], []⟩

/-- Observable actions of a run, in program order.  fetchBodyFail records a
download whose GET presented a pdf content type but whose body read failed
after the temporary file was opened: the empty file stays behind. -/
inductive Event where
  | searched : String → Event
  | skipped : String → Event
  | urlLimited : String → Event
  | domainLimited : String → Event
  | probed : String → Bool → Event
  | fetchAttempt : String → Event
  | fetchBodyFail : String → String → Event
  | fetched : String → String → Event
  | promoted : String → String → Event
  | deleted : String → Event
  | budgetStop : Event
  deriving Repr, DecidableEq

/-! ### The pipeline (download_pdf, verify_pdf, download_and_verify_pdfs) -/

/-- Embeds the file name computation of download_pdf: the last path segment
of the URL, with the pdf suffix appended when absent. -/
def file_name_of (url : String) : String :=
  let fn := String.mk (lastSegment url.data)
  if strEndsWith fn ".pdf" then fn else fn ++ ".pdf"

/-- Embeds os.path.basename for the paths this program builds. -/
def basenameOf (p : String) : String :=
  String.mk (lastSegment p.data)

/-- Embeds download_pdf.  A GET failing before the body yields no file and no
path.  When the response declares content type application/pdf the temporary
file is opened first (so it exists from here on) and the body is awaited: if
the read completes the counter is incremented and the path returned, while a
body-read failure is caught, returns no path, and leaves the just-created
empty file in the temporary folder.  A non-pdf content type creates nothing. -/
def download_pdf (env : Env) (st : ScoutState) (url : String) :
    ScoutState × Option String :=
  match env.get url with
  | GetResult.err => (st, none)
  | GetResult.ok ct bodyOk =>
    if ct == some "application/pdf" then
      let fp := TEMP_FOLDER ++ "/" ++ file_name_of url
      if bodyOk then
        ({ st with
            tempFiles := addFile st.tempFiles fp,
            downloadedCount := st.downloadedCount + 1 }, some fp)
      else
        ({ st with tempFiles := addFile st.tempFiles fp }, none)
    else (st, none)

/-- The orphan record of one download attempt: when the GET declared a pdf
content type but the body read failed, the temporary file just created is
left behind; the event names it so traces can account for orphans. -/
def bodyFailEvents (env : Env) (url : String) : List Event :=
  match env.get url with
  | GetResult.ok ct false =>
    if ct == some "application/pdf" then
      [Event.fetchBodyFail url (TEMP_FOLDER ++ "/" ++ file_name_of url)]
    else []
  | _ => []

/-- Embeds verify_pdf: extract the text (first pages) and require every
pattern of requiredPatterns to match; extraction failure verifies nothing. -/
def verify_pdf (env : Env) (fp : String) (cas name : Option String) : Bool :=
  match env.extract fp with
  | none => false
  | some text => verifyText text cas name

/-- Embeds the promote-or-delete step after a successful download: a verified
file is renamed into the persistent folder and recorded, an unverified file
is removed from the temporary folder. -/
def handleDownloaded (env : Env) (cas name : Option String) (st : ScoutState)
    (url fp : String) : ScoutState × List Event × List (String × String) :=
  if verify_pdf env fp cas name then
    let newFp := PDFS_FOLDER ++ "/" ++ basenameOf fp
    ({ st with
        tempFiles := st.tempFiles.erase fp,
        savedFiles := addFile st.savedFiles newFp },
      [Event.promoted fp newFp], [(url, newFp)])
  else
    ({ st with tempFiles := st.tempFiles.erase fp }, [Event.deleted fp], [])

/-- Embeds the probe-fetch-verify tail of one candidate iteration of
download_and_verify_pdfs, entered once the candidate has been admitted and
the visit counters incremented. -/
def probeFetch (env : Env) (cas name : Option String) (st1 : ScoutState)
    (url : String) : ScoutState × List Event × List (String × String) :=
  if is_pdf env url then
    let d := download_pdf env st1 url
    match d.2 with
    | some fp =>
      let h := handleDownloaded env cas name d.1 url fp
      (h.1, Event.probed url true :: Event.fetchAttempt url
              :: Event.fetched url fp :: h.2.1, h.2.2)
    | none =>
      (d.1, Event.probed url true :: Event.fetchAttempt url
              :: bodyFailEvents env url, [])
  else (st1, [Event.probed url false], [])

/-- Embeds one iteration of the candidate loop of download_and_verify_pdfs,
after the budget break: skip-list filter, per-URL and per-domain visit
ceilings, counter increments, probe, fetch and promote-or-delete. -/
def processCandidate (env : Env) (cas name : Option String) (st : ScoutState)
    (url : String) : ScoutState × List Event × List (String × String) :=
  if skipMatch url then (st, [Event.skipped url], [])
  else if dictMem st.urlVisits url
      && decide (MAX_URL_VISITS ≤ lookupCount st.urlVisits url) then
    (st, [Event.urlLimited url], [])
  else if dictMem st.domainVisits (netlocOf url)
      && decide (MAX_DOMAIN_VISITS ≤ lookupCount st.domainVisits (netlocOf url)) then
    (st, [Event.domainLimited url], [])
  else
    probeFetch env cas name
      { st with
        urlVisits := setCount st.urlVisits url (lookupCount st.urlVisits url + 1),
        domainVisits :=
          setCount st.domainVisits (netlocOf url)
            (lookupCount st.domainVisits (netlocOf url) + 1) }
      url

/-- Embeds the candidate loop of download_and_verify_pdfs with its budget
break at the top of each iteration. -/
def runCandidates (env : Env) (cas name : Option String) :
    ScoutState → List String → ScoutState × List Event × List (String × String)
  | st, [] => (st, [], [])
  | st, url :: rest =>
    if DOWNLOAD_LIMIT ≤ st.downloadedCount then (st, [Event.budgetStop], [])
    else
      let r1 := processCandidate env cas name st url
      let r2 := runCandidates env cas name r1.1 rest
      (r2.1, r1.2.1 ++ r2.2.1, r1.2.2 ++ r2.2.2)

/-- Embeds the query construction of download_and_verify_pdfs: a truthy CAS
number wins, else a truthy name, else a truthy url argument becomes the query
itself; with none of them the function returns without searching. -/
def buildQuery (cas name url : Option String) : Option String :=
  if truthyS cas then some ("\"" ++ cas.getD "" ++ "\" filetype:pdf")
  else if truthyS name then
    some ("\"" ++ name.getD "" ++ "\" \"safety data sheet\" filetype:pdf")
  else if truthyS url then some (url.getD "")
  else none

/-- Embeds download_and_verify_pdfs: build the query, submit it to the search
collaborator, and walk the resulting candidates. -/
def download_and_verify_pdfs (env : Env) (cas name url : Option String)
    (st : ScoutState) : ScoutState × List Event × List (String × String) :=
  match buildQuery cas name url with
  | none => (st, [], [])
  | some q =>
    let r := runCandidates env cas name st (env.searchResults q)
    (r.1, Event.searched q :: r.2.1, r.2.2)

/-! ### The entry point (main) -/

/-- One identifier request of the main input: optional CAS number, optional
name, optional explicit URL list. -/
structure Request where
  cas : Option String
  name : Option String
  urls : Option (List String)
  deriving Repr, DecidableEq

/-- Embeds Python truthiness of the optional urls field. -/
def truthyL : Option (List String) → Bool
  | none => false
  | some l => !l.isEmpty

/-- One entry of the report produced by add_report. -/
structure ReportEntry where
  cas : Option String
  name : Option String
  provider : String
  verified : Bool
  filepath : String
  url : String
  deriving Repr, DecidableEq

/-- Converts the verified-pdf pairs of one download_and_verify_pdfs call into
report entries, as the add_report calls of main do. -/
def entriesOf (cas name : Option String) (vps : List (String × String)) :
    List ReportEntry :=
  vps.map (fun p => ⟨cas, name, p.1, true, p.2, p.1⟩)

/-- Embeds the urls branch of main: one download_and_verify_pdfs call per
listed URL, accumulating report entries. -/
def runUrlList (env : Env) (cas name : Option String) :
    ScoutState → List String → ScoutState × List Event × List ReportEntry
  | st, [] => (st, [], [])
  | st, u :: rest =>
    let r1 := download_and_verify_pdfs env cas name (some u) st
    let r2 := runUrlList env cas name r1.1 rest
    (r2.1, r1.2.1 ++ r2.2.1, entriesOf cas name r1.2.2 ++ r2.2.2)

/-- Embeds the per-request dispatch of main: a truthy urls list drives one
pass per URL, else a truthy cas or name drives one search pass, else the
request is skipped with no report entry. -/
def runRequest (env : Env) (st : ScoutState) (req : Request) :
    ScoutState × List Event × List ReportEntry :=
  if truthyL req.urls then
    runUrlList env req.cas req.name st (req.urls.getD [])
  else if truthyS req.cas || truthyS req.name then
    let r := download_and_verify_pdfs env req.cas req.name none st
    (r.1, r.2.1, entriesOf req.cas req.name r.2.2)
  else (st, [], [])

/-- Embeds the request loop of main. -/
def runRequests (env : Env) :
    ScoutState → List Request → ScoutState × List Event × List ReportEntry
  | st, [] => (st, [], [])
  | st, r :: rest =>
    let r1 := runRequest env st r
    let r2 := runRequests env r1.1 rest
    (r2.1, r1.2.1 ++ r2.2.1, r1.2.2 ++ r2.2.2)

/-- Embeds one top-level invocation of main: the global download counter is
reset to zero, the visit dictionaries and folders persist. -/
def mainRun (env : Env) (st : ScoutState) (input : List Request) :
    ScoutState × List Event × List ReportEntry :=
  runRequests env { st with downloadedCount := 0 } input

/-- A whole process lifetime: a sequence of main invocations sharing the
module-level dictionaries and folders. -/
def processRun (env : Env) :
    ScoutState → List (List Request) → ScoutState × List Event
  | st, [] => (st, [])
  | st, input :: rest =>
    let r1 := mainRun env st input
    let r2 := processRun env r1.1 rest
    (r2.1, r1.2.1 ++ r2.2)

/-! ### Trace observations -/

/-- Recognizes a fetch attempt for a given URL. -/
def isFetchAttemptFor (u : String) : Event → Bool
  | Event.fetchAttempt u' => u' == u
  | _ => false

/-- Recognizes any fetch attempt. -/
def isFetchAttempt : Event → Bool
  | Event.fetchAttempt _ => true
  | _ => false

/-- Recognizes a fetch attempt whose URL parses to a given domain. -/
def isFetchAttemptForDomain (d : String) : Event → Bool
  | Event.fetchAttempt u' => netlocOf u' == d
  | _ => false

/-- Recognizes a successful download. -/
def isFetched : Event → Bool
  | Event.fetched _ _ => true
  | _ => false

/-- Recognizes a promotion. -/
def isPromoted : Event → Bool
  | Event.promoted _ _ => true
  | _ => false

/-- Number of fetch attempts for one URL in a trace. -/
def fetchAttemptsFor (u : String) (tr : List Event) : Nat :=
  tr.countP (isFetchAttemptFor u)

/-- Number of fetch attempts against one domain in a trace. -/
def domAttemptsFor (d : String) (tr : List Event) : Nat :=
  tr.countP (isFetchAttemptForDomain d)

/-- Total number of fetch attempts in a trace. -/
def totalFetchAttempts (tr : List Event) : Nat :=
  tr.countP isFetchAttempt

/-- Number of successful downloads in a trace. -/
def countFetched (tr : List Event) : Nat :=
  tr.countP isFetched

/-- Number of promotions in a trace. -/
def countPromoted (tr : List Event) : Nat :=
  tr.countP isPromoted

/-- The queries submitted to the search collaborator, in order. -/
def queriesOf (tr : List Event) : List String :=
  tr.filterMap (fun e => match e with | Event.searched q => some q | _ => none)

/-- The paths of the orphan temporary files left by downloads whose body
read failed, in order. -/
def orphanPaths (tr : List Event) : List String :=
  tr.filterMap (fun e => match e with | Event.fetchBodyFail _ p => some p | _ => none)

/-! ### Pairing automaton for the download lifecycle -/

/-- State of the lifecycle automaton: a download is either resolved
immediately or the trace is rejected. -/
inductive PairSt where
  | bad : PairSt
  | idle : PairSt
  | pending : String → PairSt
  deriving Repr, DecidableEq

/-- Steps the lifecycle automaton: each successful download must be followed
at once by exactly one promotion or deletion of the downloaded path, and no
promotion or deletion may occur otherwise. -/
def pairStep : PairSt → Event → PairSt
  | PairSt.bad, _ => PairSt.bad
  | PairSt.pending p, Event.promoted p' _ =>
    if p == p' then PairSt.idle else PairSt.bad
  | PairSt.pending p, Event.deleted p' =>
    if p == p' then PairSt.idle else PairSt.bad
  | PairSt.pending _, _ => PairSt.bad
  | PairSt.idle, Event.fetched _ p => PairSt.pending p
  | PairSt.idle, Event.promoted _ _ => PairSt.bad
  | PairSt.idle, Event.deleted _ => PairSt.bad
  | PairSt.idle, _ => PairSt.idle

/-- A trace is well paired when the lifecycle automaton accepts it. -/
def wellPaired (tr : List Event) : Bool :=
  tr.foldl pairStep PairSt.idle == PairSt.idle

/-! ### Dictionary lemmas -/

theorem lookupCount_setCount_self (d : List (String × Nat)) (k : String) (v : Nat) :
    lookupCount (setCount d k v) k = v := by
  induction d with
  | nil => simp [setCount, lookupCount]
  | cons p rest ih =>
    by_cases h : p.1 = k
    · simp [setCount, h, lookupCount]
    · simp [setCount, h, lookupCount, ih]

theorem lookupCount_setCount_ne (d : List (String × Nat)) (k k' : String) (v : Nat)
    (h : k' ≠ k) : lookupCount (setCount d k v) k' = lookupCount d k' := by
  induction d with
  | nil => simp [setCount, lookupCount, Ne.symm h]
  | cons p rest ih =>
    by_cases hp : p.1 = k
    · simp [setCount, hp, lookupCount, Ne.symm h, ih]
    · simp [setCount, hp, lookupCount, ih]

theorem lookupCount_of_not_dictMem (d : List (String × Nat)) (k : String)
    (h : dictMem d k = false) : lookupCount d k = 0 := by
  induction d with
  | nil => simp [lookupCount]
  | cons p rest ih =>
    simp [dictMem, Bool.or_eq_false_iff] at h
    simp [lookupCount, h.1, ih h.2]

theorem lt_of_not_limited (d : List (String × Nat)) (k : String) (m : Nat)
    (hm : 0 < m)
    (h : (dictMem d k && decide (m ≤ lookupCount d k)) = false) :
    lookupCount d k < m := by
  cases hmem : dictMem d k with
  | false => simpa [lookupCount_of_not_dictMem d k hmem] using hm
  | true =>
    rw [hmem, Bool.true_and, decide_eq_false_iff_not] at h
    omega

theorem dictMem_of_lookup_pos (d : List (String × Nat)) (k : String)
    (h : 0 < lookupCount d k) : dictMem d k = true := by
  cases hm : dictMem d k with
  | false => rw [lookupCount_of_not_dictMem d k hm] at h; omega
  | true => rfl

theorem limited_false_of_lt (d : List (String × Nat)) (k : String) (m : Nat)
    (h : lookupCount d k < m) :
    (dictMem d k && decide (m ≤ lookupCount d k)) = false := by
  cases hm : dictMem d k with
  | false => rfl
  | true =>
    rw [Bool.true_and, decide_eq_false_iff_not]
    omega

/-! ### The master trace invariant -/

/-- The facts about one run segment that compose across sequencing: fetch
attempts per URL and per domain are bounded by the growth of the matching
visit counter, the counters are monotone and stay at or below 5 once there,
every temporary file left at the end was present initially or is an orphan
of a failed body read, the download lifecycle automaton accepts the trace,
and no probed, attempted or fetched URL matches the skip list. -/
def TraceOk (st st' : ScoutState) (evs : List Event) : Prop :=
  (∀ u, fetchAttemptsFor u evs + lookupCount st.urlVisits u
      ≤ lookupCount st'.urlVisits u)
  ∧ (∀ d, domAttemptsFor d evs + lookupCount st.domainVisits d
      ≤ lookupCount st'.domainVisits d)
  ∧ (∀ u, lookupCount st'.urlVisits u ≤ max (lookupCount st.urlVisits u) 5)
  ∧ (∀ d, lookupCount st'.domainVisits d ≤ max (lookupCount st.domainVisits d) 5)
  ∧ st'.tempFiles ⊆ st.tempFiles ++ orphanPaths evs
  ∧ evs.foldl pairStep PairSt.idle = PairSt.idle
  ∧ (∀ u b, Event.probed u b ∈ evs → skipMatch u = false)
  ∧ (∀ u, Event.fetchAttempt u ∈ evs → skipMatch u = false)
  ∧ (∀ u p, Event.fetched u p ∈ evs → skipMatch u = false)

theorem traceOk_nil (st : ScoutState) : TraceOk st st [] := by
  refine ⟨fun u => ?_, fun d => ?_, fun u => le_max_left _ _,
    fun d => le_max_left _ _, List.subset_append_left _ _, rfl, ?_, ?_, ?_⟩ <;>
    simp [fetchAttemptsFor, domAttemptsFor]

theorem max_chain {a b c m : Nat} (h1 : b ≤ max a m) (h2 : c ≤ max b m) :
    c ≤ max a m :=
  le_trans h2 (max_le h1 (le_max_right a m))

theorem max5_chain {a b c : Nat} (h1 : b ≤ max a 5) (h2 : c ≤ max b 5) :
    c ≤ max a 5 :=
  max_chain h1 h2

theorem traceOk_comp {st st1 st2 : ScoutState} {e1 e2 : List Event}
    (h1 : TraceOk st st1 e1) (h2 : TraceOk st1 st2 e2) :
    TraceOk st st2 (e1 ++ e2) := by
  obtain ⟨a1, b1, c1, d1, t1, p1, q1, r1, s1⟩ := h1
  obtain ⟨a2, b2, c2, d2, t2, p2, q2, r2, s2⟩ := h2
  refine ⟨fun u => ?_, fun d => ?_, fun u => max5_chain (c1 u) (c2 u),
    fun d => max5_chain (d1 d) (d2 d), ?_, ?_, ?_, ?_, ?_⟩
  · have ha1 := a1 u; have ha2 := a2 u
    simp only [fetchAttemptsFor, List.countP_append] at *
    omega
  · have hb1 := b1 d; have hb2 := b2 d
    simp only [domAttemptsFor, List.countP_append] at *
    omega
  · intro a ha
    have h2a := t2 ha
    rcases List.mem_append.mp h2a with h | h
    · have h1a := t1 h
      rcases List.mem_append.mp h1a with h' | h'
      · exact List.mem_append_left _ h'
      · refine List.mem_append_right _ ?_
        simp only [orphanPaths, List.filterMap_append]
        exact List.mem_append_left _ h'
    · refine List.mem_append_right _ ?_
      simp only [orphanPaths, List.filterMap_append]
      exact List.mem_append_right _ h
  · rw [List.foldl_append, p1, p2]
  · intro u b hm
    rcases List.mem_append.mp hm with h | h
    · exact q1 u b h
    · exact q2 u b h
  · intro u hm
    rcases List.mem_append.mp hm with h | h
    · exact r1 u h
    · exact r2 u h
  · intro u p hm
    rcases List.mem_append.mp hm with h | h
    · exact s1 u p h
    · exact s2 u p h

theorem traceOk_single_benign (st : ScoutState) (e : Event)
    (h1 : ∀ u, isFetchAttemptFor u e = false)
    (h2 : ∀ d, isFetchAttemptForDomain d e = false)
    (h4 : pairStep PairSt.idle e = PairSt.idle)
    (h5 : ∀ u b, e ≠ Event.probed u b)
    (h6 : ∀ u, e ≠ Event.fetchAttempt u)
    (h7 : ∀ u p, e ≠ Event.fetched u p) :
    TraceOk st st [e] := by
  refine ⟨fun u => ?_, fun d => ?_, fun u => le_max_left _ _,
    fun d => le_max_left _ _, List.subset_append_left _ _, ?_, ?_, ?_, ?_⟩
  · simp [fetchAttemptsFor, List.countP_cons, h1]
  · simp [domAttemptsFor, List.countP_cons, h2]
  · simp [h4]
  · intro u b hm
    simp only [List.mem_singleton] at hm
    exact absurd hm.symm (h5 u b)
  · intro u hm
    simp only [List.mem_singleton] at hm
    exact absurd hm.symm (h6 u)
  · intro u p hm
    simp only [List.mem_singleton] at hm
    exact absurd hm.symm (h7 u p)

/-! ### Behavior of the probe-fetch-verify tail -/

theorem erase_addFile_subset (l : List String) (f : String) :
    (addFile l f).erase f ⊆ l := by
  unfold addFile
  cases h : l.contains f with
  | false =>
    simp only [h, Bool.false_eq_true, if_false, List.erase_cons_head]
    exact List.Subset.refl _
  | true =>
    simp only [h, if_true]
    exact List.erase_subset _ _

theorem probeFetch_urlVisits (env : Env) (cas name : Option String)
    (st1 : ScoutState) (url : String) :
    (probeFetch env cas name st1 url).1.urlVisits = st1.urlVisits := by
  unfold probeFetch download_pdf handleDownloaded bodyFailEvents
  cases hp : is_pdf env url
  · simp
  · cases hg : env.get url with
    | err => simp
    | ok ct bodyOk =>
      cases bodyOk with
      | true =>
        by_cases hct : (ct == some "application/pdf") = true
        · by_cases hv : verify_pdf env (TEMP_FOLDER ++ "/" ++ file_name_of url) cas name
          · simp [hct, hv]
          · simp [hct, hv]
        · simp [hct]
      | false =>
        by_cases hct : (ct == some "application/pdf") = true
        · simp [hct]
        · simp [hct]

theorem probeFetch_domainVisits (env : Env) (cas name : Option String)
    (st1 : ScoutState) (url : String) :
    (probeFetch env cas name st1 url).1.domainVisits = st1.domainVisits := by
  unfold probeFetch download_pdf handleDownloaded bodyFailEvents
  cases hp : is_pdf env url
  · simp
  · cases hg : env.get url with
    | err => simp
    | ok ct bodyOk =>
      cases bodyOk with
      | true =>
        by_cases hct : (ct == some "application/pdf") = true
        · by_cases hv : verify_pdf env (TEMP_FOLDER ++ "/" ++ file_name_of url) cas name
          · simp [hct, hv]
          · simp [hct, hv]
        · simp [hct]
      | false =>
        by_cases hct : (ct == some "application/pdf") = true
        · simp [hct]
        · simp [hct]

theorem probeFetch_attempt_self (env : Env) (cas name : Option String)
    (st1 : ScoutState) (url : String) :
    fetchAttemptsFor url (probeFetch env cas name st1 url).2.1 ≤ 1 := by
  unfold probeFetch download_pdf handleDownloaded bodyFailEvents
  cases hp : is_pdf env url
  · simp [fetchAttemptsFor, isFetchAttemptFor, List.countP_cons]
  · cases hg : env.get url with
    | err => simp [fetchAttemptsFor, isFetchAttemptFor, List.countP_cons]
    | ok ct bodyOk =>
      cases bodyOk with
      | true =>
        by_cases hct : (ct == some "application/pdf") = true
        · by_cases hv : verify_pdf env (TEMP_FOLDER ++ "/" ++ file_name_of url) cas name
          · simp [hct, hv, fetchAttemptsFor, isFetchAttemptFor, List.countP_cons]
          · simp [hct, hv, fetchAttemptsFor, isFetchAttemptFor, List.countP_cons]
        · simp [hct, fetchAttemptsFor, isFetchAttemptFor, List.countP_cons]
      | false =>
        by_cases hct : (ct == some "application/pdf") = true
        · simp [hct, fetchAttemptsFor, isFetchAttemptFor, List.countP_cons]
        · simp [hct, fetchAttemptsFor, isFetchAttemptFor, List.countP_cons]

theorem probeFetch_attempt_other (env : Env) (cas name : Option String)
    (st1 : ScoutState) (url u : String) (hu : u ≠ url) :
    fetchAttemptsFor u (probeFetch env cas name st1 url).2.1 = 0 := by
  unfold probeFetch download_pdf handleDownloaded bodyFailEvents
  cases hp : is_pdf env url
  · simp [fetchAttemptsFor, isFetchAttemptFor, List.countP_cons]
  · cases hg : env.get url with
    | err => simp [fetchAttemptsFor, isFetchAttemptFor, List.countP_cons, Ne.symm hu]
    | ok ct bodyOk =>
      cases bodyOk with
      | true =>
        by_cases hct : (ct == some "application/pdf") = true
        · by_cases hv : verify_pdf env (TEMP_FOLDER ++ "/" ++ file_name_of url) cas name
          · simp [hct, hv, fetchAttemptsFor, isFetchAttemptFor, List.countP_cons, Ne.symm hu]
          · simp [hct, hv, fetchAttemptsFor, isFetchAttemptFor, List.countP_cons, Ne.symm hu]
        · simp [hct, fetchAttemptsFor, isFetchAttemptFor, List.countP_cons, Ne.symm hu]
      | false =>
        by_cases hct : (ct == some "application/pdf") = true
        · simp [hct, fetchAttemptsFor, isFetchAttemptFor, List.countP_cons, Ne.symm hu]
        · simp [hct, fetchAttemptsFor, isFetchAttemptFor, List.countP_cons, Ne.symm hu]

theorem probeFetch_domAttempt_self (env : Env) (cas name : Option String)
    (st1 : ScoutState) (url : String) :
    domAttemptsFor (netlocOf url) (probeFetch env cas name st1 url).2.1 ≤ 1 := by
  unfold probeFetch download_pdf handleDownloaded bodyFailEvents
  cases hp : is_pdf env url
  · simp [domAttemptsFor, isFetchAttemptForDomain, List.countP_cons]
  · cases hg : env.get url with
    | err => simp [domAttemptsFor, isFetchAttemptForDomain, List.countP_cons]
    | ok ct bodyOk =>
      cases bodyOk with
      | true =>
        by_cases hct : (ct == some "application/pdf") = true
        · by_cases hv : verify_pdf env (TEMP_FOLDER ++ "/" ++ file_name_of url) cas name
          · simp [hct, hv, domAttemptsFor, isFetchAttemptForDomain, List.countP_cons]
          · simp [hct, hv, domAttemptsFor, isFetchAttemptForDomain, List.countP_cons]
        · simp [hct, domAttemptsFor, isFetchAttemptForDomain, List.countP_cons]
      | false =>
        by_cases hct : (ct == some "application/pdf") = true
        · simp [hct, domAttemptsFor, isFetchAttemptForDomain, List.countP_cons]
        · simp [hct, domAttemptsFor, isFetchAttemptForDomain, List.countP_cons]

theorem probeFetch_domAttempt_other (env : Env) (cas name : Option String)
    (st1 : ScoutState) (url : String) (d : String) (hd : d ≠ netlocOf url) :
    domAttemptsFor d (probeFetch env cas name st1 url).2.1 = 0 := by
  unfold probeFetch download_pdf handleDownloaded bodyFailEvents
  cases hp : is_pdf env url
  · simp [domAttemptsFor, isFetchAttemptForDomain, List.countP_cons]
  · cases hg : env.get url with
    | err => simp [domAttemptsFor, isFetchAttemptForDomain, List.countP_cons, Ne.symm hd]
    | ok ct bodyOk =>
      cases bodyOk with
      | true =>
        by_cases hct : (ct == some "application/pdf") = true
        · by_cases hv : verify_pdf env (TEMP_FOLDER ++ "/" ++ file_name_of url) cas name
          · simp [hct, hv, domAttemptsFor, isFetchAttemptForDomain, List.countP_cons, Ne.symm hd]
          · simp [hct, hv, domAttemptsFor, isFetchAttemptForDomain, List.countP_cons, Ne.symm hd]
        · simp [hct, domAttemptsFor, isFetchAttemptForDomain, List.countP_cons, Ne.symm hd]
      | false =>
        by_cases hct : (ct == some "application/pdf") = true
        · simp [hct, domAttemptsFor, isFetchAttemptForDomain, List.countP_cons, Ne.symm hd]
        · simp [hct, domAttemptsFor, isFetchAttemptForDomain, List.countP_cons, Ne.symm hd]

theorem addFile_subset_append (l : List String) (f : String) :
    addFile l f ⊆ l ++ [f] := by
  unfold addFile
  cases h : l.contains f with
  | false =>
    simp only [h, Bool.false_eq_true, if_false]
    intro a ha
    rcases List.mem_cons.mp ha with h2 | h2
    · subst h2
      exact List.mem_append_right _ (List.mem_singleton_self _)
    · exact List.mem_append_left _ h2
  | true =>
    simp only [h, if_true]
    exact List.subset_append_left _ _

theorem probeFetch_temp (env : Env) (cas name : Option String)
    (st1 : ScoutState) (url : String) :
    (probeFetch env cas name st1 url).1.tempFiles
      ⊆ st1.tempFiles ++ orphanPaths (probeFetch env cas name st1 url).2.1 := by
  unfold probeFetch download_pdf handleDownloaded bodyFailEvents
  cases hp : is_pdf env url
  · exact List.subset_append_left _ _
  · cases hg : env.get url with
    | err => exact List.subset_append_left _ _
    | ok ct bodyOk =>
      cases bodyOk with
      | true =>
        by_cases hct : (ct == some "application/pdf") = true
        · by_cases hv : verify_pdf env (TEMP_FOLDER ++ "/" ++ file_name_of url) cas name
          · simp only [hct, hv, if_true]
            exact List.Subset.trans (erase_addFile_subset _ _)
              (List.subset_append_left _ _)
          · simp only [hct, hv, if_true, if_false, Bool.false_eq_true]
            exact List.Subset.trans (erase_addFile_subset _ _)
              (List.subset_append_left _ _)
        · simp only [hct, Bool.false_eq_true, if_false]
          exact List.subset_append_left _ _
      | false =>
        by_cases hct : (ct == some "application/pdf") = true
        · simp only [hct, if_true]
          have h := addFile_subset_append st1.tempFiles
            (TEMP_FOLDER ++ "/" ++ file_name_of url)
          simpa [orphanPaths] using h
        · simp only [hct, Bool.false_eq_true, if_false]
          exact List.subset_append_left _ _

theorem probeFetch_pair (env : Env) (cas name : Option String)
    (st1 : ScoutState) (url : String) :
    (probeFetch env cas name st1 url).2.1.foldl pairStep PairSt.idle = PairSt.idle := by
  unfold probeFetch download_pdf handleDownloaded bodyFailEvents
  cases hp : is_pdf env url
  · simp [pairStep]
  · cases hg : env.get url with
    | err => simp [pairStep]
    | ok ct bodyOk =>
      cases bodyOk with
      | true =>
        by_cases hct : (ct == some "application/pdf") = true
        · by_cases hv : verify_pdf env (TEMP_FOLDER ++ "/" ++ file_name_of url) cas name
          · simp [hct, hv, pairStep]
          · simp [hct, hv, pairStep]
        · simp [hct, pairStep]
      | false =>
        by_cases hct : (ct == some "application/pdf") = true
        · simp [hct, pairStep]
        · simp [hct, pairStep]

theorem probeFetch_probed_mem (env : Env) (cas name : Option String)
    (st1 : ScoutState) (url u : String) (b : Bool)
    (hm : Event.probed u b ∈ (probeFetch env cas name st1 url).2.1) : u = url := by
  revert hm
  unfold probeFetch download_pdf handleDownloaded bodyFailEvents
  cases hp : is_pdf env url
  · intro hm; simp at hm; exact hm.1
  · cases hg : env.get url with
    | err => intro hm; simp at hm; exact hm.1
    | ok ct bodyOk =>
      cases bodyOk with
      | true =>
        by_cases hct : (ct == some "application/pdf") = true
        · by_cases hv : verify_pdf env (TEMP_FOLDER ++ "/" ++ file_name_of url) cas name
          · intro hm; simp [hct, hv] at hm; exact hm.1
          · intro hm; simp [hct, hv] at hm; exact hm.1
        · intro hm; simp [hct] at hm; exact hm.1
      | false =>
        by_cases hct : (ct == some "application/pdf") = true
        · intro hm; simp [hct] at hm; exact hm.1
        · intro hm; simp [hct] at hm; exact hm.1

theorem probeFetch_fetchAttempt_mem (env : Env) (cas name : Option String)
    (st1 : ScoutState) (url u : String)
    (hm : Event.fetchAttempt u ∈ (probeFetch env cas name st1 url).2.1) : u = url := by
  revert hm
  unfold probeFetch download_pdf handleDownloaded bodyFailEvents
  cases hp : is_pdf env url
  · intro hm; simp at hm
  · cases hg : env.get url with
    | err => intro hm; simp at hm; exact hm
    | ok ct bodyOk =>
      cases bodyOk with
      | true =>
        by_cases hct : (ct == some "application/pdf") = true
        · by_cases hv : verify_pdf env (TEMP_FOLDER ++ "/" ++ file_name_of url) cas name
          · intro hm; simp [hct, hv] at hm; exact hm
          · intro hm; simp [hct, hv] at hm; exact hm
        · intro hm; simp [hct] at hm; exact hm
      | false =>
        by_cases hct : (ct == some "application/pdf") = true
        · intro hm; simp [hct] at hm; exact hm
        · intro hm; simp [hct] at hm; exact hm

theorem probeFetch_fetched_mem (env : Env) (cas name : Option String)
    (st1 : ScoutState) (url u p : String)
    (hm : Event.fetched u p ∈ (probeFetch env cas name st1 url).2.1) : u = url := by
  revert hm
  unfold probeFetch download_pdf handleDownloaded bodyFailEvents
  cases hp : is_pdf env url
  · intro hm; simp at hm
  · cases hg : env.get url with
    | err => intro hm; simp at hm
    | ok ct bodyOk =>
      cases bodyOk with
      | true =>
        by_cases hct : (ct == some "application/pdf") = true
        · by_cases hv : verify_pdf env (TEMP_FOLDER ++ "/" ++ file_name_of url) cas name
          · intro hm; simp [hct, hv] at hm; exact hm.1
          · intro hm; simp [hct, hv] at hm; exact hm.1
        · intro hm; simp [hct] at hm
      | false =>
        by_cases hct : (ct == some "application/pdf") = true
        · intro hm; simp [hct] at hm
        · intro hm; simp [hct] at hm

theorem probeFetch_dlEq (env : Env) (cas name : Option String)
    (st1 : ScoutState) (url : String) :
    (probeFetch env cas name st1 url).1.downloadedCount
      = st1.downloadedCount + countFetched (probeFetch env cas name st1 url).2.1 := by
  unfold probeFetch download_pdf handleDownloaded bodyFailEvents
  cases hp : is_pdf env url
  · simp [countFetched, isFetched, List.countP_cons]
  · cases hg : env.get url with
    | err => simp [countFetched, isFetched, List.countP_cons]
    | ok ct bodyOk =>
      cases bodyOk with
      | true =>
        by_cases hct : (ct == some "application/pdf") = true
        · by_cases hv : verify_pdf env (TEMP_FOLDER ++ "/" ++ file_name_of url) cas name
          · simp [hct, hv, countFetched, isFetched, List.countP_cons]
          · simp [hct, hv, countFetched, isFetched, List.countP_cons]
        · simp [hct, countFetched, isFetched, List.countP_cons]
      | false =>
        by_cases hct : (ct == some "application/pdf") = true
        · simp [hct, countFetched, isFetched, List.countP_cons]
        · simp [hct, countFetched, isFetched, List.countP_cons]

theorem probeFetch_dlLe (env : Env) (cas name : Option String)
    (st1 : ScoutState) (url : String) :
    countFetched (probeFetch env cas name st1 url).2.1 ≤ 1 := by
  unfold probeFetch download_pdf handleDownloaded bodyFailEvents
  cases hp : is_pdf env url
  · simp [countFetched, isFetched, List.countP_cons]
  · cases hg : env.get url with
    | err => simp [countFetched, isFetched, List.countP_cons]
    | ok ct bodyOk =>
      cases bodyOk with
      | true =>
        by_cases hct : (ct == some "application/pdf") = true
        · by_cases hv : verify_pdf env (TEMP_FOLDER ++ "/" ++ file_name_of url) cas name
          · simp [hct, hv, countFetched, isFetched, List.countP_cons]
          · simp [hct, hv, countFetched, isFetched, List.countP_cons]
        · simp [hct, countFetched, isFetched, List.countP_cons]
      | false =>
        by_cases hct : (ct == some "application/pdf") = true
        · simp [hct, countFetched, isFetched, List.countP_cons]
        · simp [hct, countFetched, isFetched, List.countP_cons]

theorem probeFetch_vps_len (env : Env) (cas name : Option String)
    (st1 : ScoutState) (url : String) :
    (probeFetch env cas name st1 url).2.2.length
      = countPromoted (probeFetch env cas name st1 url).2.1 := by
  unfold probeFetch download_pdf handleDownloaded bodyFailEvents
  cases hp : is_pdf env url
  · simp [countPromoted, isPromoted, List.countP_cons]
  · cases hg : env.get url with
    | err => simp [countPromoted, isPromoted, List.countP_cons]
    | ok ct bodyOk =>
      cases bodyOk with
      | true =>
        by_cases hct : (ct == some "application/pdf") = true
        · by_cases hv : verify_pdf env (TEMP_FOLDER ++ "/" ++ file_name_of url) cas name
          · simp [hct, hv, countPromoted, isPromoted, List.countP_cons]
          · simp [hct, hv, countPromoted, isPromoted, List.countP_cons]
        · simp [hct, countPromoted, isPromoted, List.countP_cons]
      | false =>
        by_cases hct : (ct == some "application/pdf") = true
        · simp [hct, countPromoted, isPromoted, List.countP_cons]
        · simp [hct, countPromoted, isPromoted, List.countP_cons]

theorem probeFetch_vps_shape (env : Env) (cas name : Option String)
    (st1 : ScoutState) (url : String) :
    ∀ p ∈ (probeFetch env cas name st1 url).2.2,
      ∃ b, p.2 = PDFS_FOLDER ++ "/" ++ b := by
  unfold probeFetch download_pdf handleDownloaded bodyFailEvents
  cases hp : is_pdf env url
  · simp
  · cases hg : env.get url with
    | err => simp
    | ok ct bodyOk =>
      cases bodyOk with
      | true =>
        by_cases hct : (ct == some "application/pdf") = true
        · by_cases hv : verify_pdf env (TEMP_FOLDER ++ "/" ++ file_name_of url) cas name
          · intro p hm
            simp [hct, hv] at hm
            exact ⟨basenameOf (TEMP_FOLDER ++ "/" ++ file_name_of url), by rw [hm]⟩
          · simp [hct, hv]
        · simp [hct]
      | false =>
        by_cases hct : (ct == some "application/pdf") = true
        · simp [hct]
        · simp [hct]

theorem probeFetch_probed_self (env : Env) (cas name : Option String)
    (st1 : ScoutState) (url : String) :
    Event.probed url (is_pdf env url) ∈ (probeFetch env cas name st1 url).2.1 := by
  unfold probeFetch download_pdf handleDownloaded bodyFailEvents
  cases hp : is_pdf env url
  · simp
  · cases hg : env.get url with
    | err => simp
    | ok ct bodyOk =>
      cases bodyOk with
      | true =>
        by_cases hct : (ct == some "application/pdf") = true
        · by_cases hv : verify_pdf env (TEMP_FOLDER ++ "/" ++ file_name_of url) cas name
          · simp [hct, hv]
          · simp [hct, hv]
        · simp [hct]
      | false =>
        by_cases hct : (ct == some "application/pdf") = true
        · simp [hct]
        · simp [hct]

theorem probeFetch_searched_not_mem (env : Env) (cas name : Option String)
    (st1 : ScoutState) (url : String) (q : String) :
    Event.searched q ∉ (probeFetch env cas name st1 url).2.1 := by
  unfold probeFetch download_pdf handleDownloaded bodyFailEvents
  cases hp : is_pdf env url
  · simp
  · cases hg : env.get url with
    | err => simp
    | ok ct bodyOk =>
      cases bodyOk with
      | true =>
        by_cases hct : (ct == some "application/pdf") = true
        · by_cases hv : verify_pdf env (TEMP_FOLDER ++ "/" ++ file_name_of url) cas name
          · simp [hct, hv]
          · simp [hct, hv]
        · simp [hct]
      | false =>
        by_cases hct : (ct == some "application/pdf") = true
        · simp [hct]
        · simp [hct]

/-! ### Behavior of one candidate iteration -/

theorem processCandidate_ok (env : Env) (cas name : Option String)
    (st : ScoutState) (url : String) :
    TraceOk st (processCandidate env cas name st url).1
      (processCandidate env cas name st url).2.1 := by
  unfold processCandidate
  cases hskip : skipMatch url with
  | true =>
    simp only [hskip, if_true]
    exact traceOk_single_benign st _ (fun u => rfl) (fun d => rfl) rfl
      (fun u b => by simp) (fun u => by simp) (fun u p => by simp)
  | false =>
    simp only [hskip, Bool.false_eq_true, if_false]
    cases hul : dictMem st.urlVisits url
        && decide (MAX_URL_VISITS ≤ lookupCount st.urlVisits url) with
    | true =>
      simp only [if_true]
      exact traceOk_single_benign st _ (fun u => rfl) (fun d => rfl) rfl
        (fun u b => by simp) (fun u => by simp) (fun u p => by simp)
    | false =>
      simp only [Bool.false_eq_true, if_false]
      cases hdo : dictMem st.domainVisits (netlocOf url)
          && decide (MAX_DOMAIN_VISITS ≤ lookupCount st.domainVisits (netlocOf url)) with
      | true =>
        simp only [if_true]
        exact traceOk_single_benign st _ (fun u => rfl) (fun d => rfl) rfl
          (fun u b => by simp) (fun u => by simp) (fun u p => by simp)
      | false =>
        simp only [Bool.false_eq_true, if_false]
        have hulLt : lookupCount st.urlVisits url < MAX_URL_VISITS :=
          lt_of_not_limited _ _ _ (by decide) hul
        have hdoLt : lookupCount st.domainVisits (netlocOf url) < MAX_DOMAIN_VISITS :=
          lt_of_not_limited _ _ _ (by decide) hdo
        refine ⟨?_, ?_, ?_, ?_, ?_, probeFetch_pair env cas name _ url, ?_, ?_, ?_⟩
        · intro u
          rw [probeFetch_urlVisits]
          by_cases hu : u = url
          · subst hu
            rw [lookupCount_setCount_self]
            have := probeFetch_attempt_self env cas name
              { st with
                urlVisits := setCount st.urlVisits u (lookupCount st.urlVisits u + 1),
                domainVisits := setCount st.domainVisits (netlocOf u)
                  (lookupCount st.domainVisits (netlocOf u) + 1) } u
            omega
          · rw [lookupCount_setCount_ne _ _ _ _ hu,
              probeFetch_attempt_other env cas name _ url u hu]
            omega
        · intro d
          rw [probeFetch_domainVisits]
          by_cases hd : d = netlocOf url
          · subst hd
            rw [lookupCount_setCount_self]
            have := probeFetch_domAttempt_self env cas name
              { st with
                urlVisits := setCount st.urlVisits url (lookupCount st.urlVisits url + 1),
                domainVisits := setCount st.domainVisits (netlocOf url)
                  (lookupCount st.domainVisits (netlocOf url) + 1) } url
            omega
          · rw [lookupCount_setCount_ne _ _ _ _ hd,
              probeFetch_domAttempt_other env cas name _ url d hd]
            omega
        · intro u
          rw [probeFetch_urlVisits]
          by_cases hu : u = url
          · subst hu
            rw [lookupCount_setCount_self]
            have h5 : lookupCount st.urlVisits u + 1 ≤ 5 := hulLt
            exact le_trans h5 (le_max_right _ _)
          · rw [lookupCount_setCount_ne _ _ _ _ hu]
            exact le_max_left _ _
        · intro d
          rw [probeFetch_domainVisits]
          by_cases hd : d = netlocOf url
          · subst hd
            rw [lookupCount_setCount_self]
            have h5 : lookupCount st.domainVisits (netlocOf url) + 1 ≤ 5 := hdoLt
            exact le_trans h5 (le_max_right _ _)
          · rw [lookupCount_setCount_ne _ _ _ _ hd]
            exact le_max_left _ _
        · exact probeFetch_temp env cas name _ url
        · intro u b hm
          rw [probeFetch_probed_mem env cas name _ url u b hm]
          exact hskip
        · intro u hm
          rw [probeFetch_fetchAttempt_mem env cas name _ url u hm]
          exact hskip
        · intro u p hm
          rw [probeFetch_fetched_mem env cas name _ url u p hm]
          exact hskip

theorem processCandidate_dlEq (env : Env) (cas name : Option String)
    (st : ScoutState) (url : String) :
    (processCandidate env cas name st url).1.downloadedCount
      = st.downloadedCount + countFetched (processCandidate env cas name st url).2.1 := by
  unfold processCandidate
  cases hskip : skipMatch url with
  | true => simp [countFetched, isFetched, List.countP_cons]
  | false =>
    cases hul : dictMem st.urlVisits url
        && decide (MAX_URL_VISITS ≤ lookupCount st.urlVisits url) with
    | true => simp [countFetched, isFetched, List.countP_cons]
    | false =>
      cases hdo : dictMem st.domainVisits (netlocOf url)
          && decide (MAX_DOMAIN_VISITS ≤ lookupCount st.domainVisits (netlocOf url)) with
      | true => simp [countFetched, isFetched, List.countP_cons]
      | false =>
        simp only [Bool.false_eq_true, if_false]
        exact probeFetch_dlEq env cas name _ url

theorem processCandidate_dlLe (env : Env) (cas name : Option String)
    (st : ScoutState) (url : String) :
    countFetched (processCandidate env cas name st url).2.1 ≤ 1 := by
  unfold processCandidate
  cases hskip : skipMatch url with
  | true => simp [countFetched, isFetched, List.countP_cons]
  | false =>
    cases hul : dictMem st.urlVisits url
        && decide (MAX_URL_VISITS ≤ lookupCount st.urlVisits url) with
    | true => simp [countFetched, isFetched, List.countP_cons]
    | false =>
      cases hdo : dictMem st.domainVisits (netlocOf url)
          && decide (MAX_DOMAIN_VISITS ≤ lookupCount st.domainVisits (netlocOf url)) with
      | true => simp [countFetched, isFetched, List.countP_cons]
      | false =>
        simp only [Bool.false_eq_true, if_false]
        exact probeFetch_dlLe env cas name _ url

theorem processCandidate_vps_len (env : Env) (cas name : Option String)
    (st : ScoutState) (url : String) :
    (processCandidate env cas name st url).2.2.length
      = countPromoted (processCandidate env cas name st url).2.1 := by
  unfold processCandidate
  cases hskip : skipMatch url with
  | true => simp [countPromoted, isPromoted, List.countP_cons]
  | false =>
    cases hul : dictMem st.urlVisits url
        && decide (MAX_URL_VISITS ≤ lookupCount st.urlVisits url) with
    | true => simp [countPromoted, isPromoted, List.countP_cons]
    | false =>
      cases hdo : dictMem st.domainVisits (netlocOf url)
          && decide (MAX_DOMAIN_VISITS ≤ lookupCount st.domainVisits (netlocOf url)) with
      | true => simp [countPromoted, isPromoted, List.countP_cons]
      | false =>
        simp only [Bool.false_eq_true, if_false]
        exact probeFetch_vps_len env cas name _ url

theorem processCandidate_vps_shape (env : Env) (cas name : Option String)
    (st : ScoutState) (url : String) :
    ∀ p ∈ (processCandidate env cas name st url).2.2,
      ∃ b, p.2 = PDFS_FOLDER ++ "/" ++ b := by
  unfold processCandidate
  cases hskip : skipMatch url with
  | true => simp
  | false =>
    cases hul : dictMem st.urlVisits url
        && decide (MAX_URL_VISITS ≤ lookupCount st.urlVisits url) with
    | true => simp
    | false =>
      cases hdo : dictMem st.domainVisits (netlocOf url)
          && decide (MAX_DOMAIN_VISITS ≤ lookupCount st.domainVisits (netlocOf url)) with
      | true => simp
      | false =>
        simp only [Bool.false_eq_true, if_false]
        exact probeFetch_vps_shape env cas name _ url

theorem processCandidate_searched_not_mem (env : Env) (cas name : Option String)
    (st : ScoutState) (url : String) (q : String) :
    Event.searched q ∉ (processCandidate env cas name st url).2.1 := by
  unfold processCandidate
  cases hskip : skipMatch url with
  | true => simp
  | false =>
    cases hul : dictMem st.urlVisits url
        && decide (MAX_URL_VISITS ≤ lookupCount st.urlVisits url) with
    | true => simp
    | false =>
      cases hdo : dictMem st.domainVisits (netlocOf url)
          && decide (MAX_DOMAIN_VISITS ≤ lookupCount st.domainVisits (netlocOf url)) with
      | true => simp
      | false =>
        simp only [Bool.false_eq_true, if_false]
        exact probeFetch_searched_not_mem env cas name _ url q

theorem processCandidate_attempt_eq (env : Env) (cas name : Option String)
    (st : ScoutState) (url u : String)
    (hm : Event.fetchAttempt u ∈ (processCandidate env cas name st url).2.1) :
    u = url := by
  revert hm
  unfold processCandidate
  cases hskip : skipMatch url with
  | true => simp
  | false =>
    cases hul : dictMem st.urlVisits url
        && decide (MAX_URL_VISITS ≤ lookupCount st.urlVisits url) with
    | true => simp
    | false =>
      cases hdo : dictMem st.domainVisits (netlocOf url)
          && decide (MAX_DOMAIN_VISITS ≤ lookupCount st.domainVisits (netlocOf url)) with
      | true => simp
      | false =>
        simp only [Bool.false_eq_true, if_false]
        exact probeFetch_fetchAttempt_mem env cas name _ url u

/-! ### Behavior of the candidate loop -/

theorem runCandidates_ok (env : Env) (cas name : Option String)
    (l : List String) (st : ScoutState) :
    TraceOk st (runCandidates env cas name st l).1
      (runCandidates env cas name st l).2.1 := by
  induction l generalizing st with
  | nil => exact traceOk_nil st
  | cons url rest ih =>
    by_cases hb : DOWNLOAD_LIMIT ≤ st.downloadedCount
    · simp only [runCandidates, if_pos hb]
      exact traceOk_single_benign st _ (fun u => rfl) (fun d => rfl) rfl
        (fun u b => by simp) (fun u => by simp) (fun u p => by simp)
    · simp only [runCandidates, if_neg hb]
      exact traceOk_comp (processCandidate_ok env cas name st url) (ih _)

theorem runCandidates_dlEq (env : Env) (cas name : Option String)
    (l : List String) (st : ScoutState) :
    (runCandidates env cas name st l).1.downloadedCount
      = st.downloadedCount + countFetched (runCandidates env cas name st l).2.1 := by
  induction l generalizing st with
  | nil => simp [runCandidates, countFetched]
  | cons url rest ih =>
    by_cases hb : DOWNLOAD_LIMIT ≤ st.downloadedCount
    · simp [runCandidates, if_pos hb, countFetched, isFetched, List.countP_cons]
    · simp only [runCandidates, if_neg hb]
      have h1 := processCandidate_dlEq env cas name st url
      have h2 := ih (processCandidate env cas name st url).1
      simp only [countFetched, List.countP_append] at h1 h2 ⊢
      omega

theorem runCandidates_dlBound (env : Env) (cas name : Option String)
    (l : List String) (st : ScoutState) :
    (runCandidates env cas name st l).1.downloadedCount
      ≤ max st.downloadedCount DOWNLOAD_LIMIT := by
  induction l generalizing st with
  | nil => exact le_max_left _ _
  | cons url rest ih =>
    by_cases hb : DOWNLOAD_LIMIT ≤ st.downloadedCount
    · simp only [runCandidates, if_pos hb]
      exact le_max_left _ _
    · simp only [runCandidates, if_neg hb]
      have hd1 := processCandidate_dlEq env cas name st url
      have hd2 := processCandidate_dlLe env cas name st url
      have h2 := ih (processCandidate env cas name st url).1
      have hmax : max (processCandidate env cas name st url).1.downloadedCount
          DOWNLOAD_LIMIT = DOWNLOAD_LIMIT := by
        apply max_eq_right
        omega
      rw [hmax] at h2
      exact le_trans h2 (le_max_right _ _)

theorem runCandidates_vps_len (env : Env) (cas name : Option String)
    (l : List String) (st : ScoutState) :
    (runCandidates env cas name st l).2.2.length
      = countPromoted (runCandidates env cas name st l).2.1 := by
  induction l generalizing st with
  | nil => simp [runCandidates, countPromoted]
  | cons url rest ih =>
    by_cases hb : DOWNLOAD_LIMIT ≤ st.downloadedCount
    · simp [runCandidates, if_pos hb, countPromoted, isPromoted, List.countP_cons]
    · simp only [runCandidates, if_neg hb]
      have h1 := processCandidate_vps_len env cas name st url
      have h2 := ih (processCandidate env cas name st url).1
      simp only [countPromoted, List.countP_append, List.length_append] at h1 h2 ⊢
      omega

theorem runCandidates_vps_shape (env : Env) (cas name : Option String)
    (l : List String) (st : ScoutState) :
    ∀ p ∈ (runCandidates env cas name st l).2.2,
      ∃ b, p.2 = PDFS_FOLDER ++ "/" ++ b := by
  induction l generalizing st with
  | nil => simp [runCandidates]
  | cons url rest ih =>
    by_cases hb : DOWNLOAD_LIMIT ≤ st.downloadedCount
    · simp [runCandidates, if_pos hb]
    · simp only [runCandidates, if_neg hb]
      intro p hm
      rcases List.mem_append.mp hm with h | h
      · exact processCandidate_vps_shape env cas name st url p h
      · exact ih _ p h

theorem runCandidates_searched_not_mem (env : Env) (cas name : Option String)
    (l : List String) (st : ScoutState) (q : String) :
    Event.searched q ∉ (runCandidates env cas name st l).2.1 := by
  induction l generalizing st with
  | nil => simp [runCandidates]
  | cons url rest ih =>
    by_cases hb : DOWNLOAD_LIMIT ≤ st.downloadedCount
    · simp [runCandidates, if_pos hb]
    · simp only [runCandidates, if_neg hb]
      intro hm
      rcases List.mem_append.mp hm with h | h
      · exact processCandidate_searched_not_mem env cas name st url q h
      · exact ih _ h

theorem runCandidates_attempt_mem (env : Env) (cas name : Option String)
    (l : List String) (st : ScoutState) (u : String)
    (hm : Event.fetchAttempt u ∈ (runCandidates env cas name st l).2.1) :
    u ∈ l := by
  induction l generalizing st with
  | nil => simp [runCandidates] at hm
  | cons url rest ih =>
    by_cases hb : DOWNLOAD_LIMIT ≤ st.downloadedCount
    · simp [runCandidates, if_pos hb] at hm
    · simp only [runCandidates, if_neg hb] at hm
      rcases List.mem_append.mp hm with h | h
      · rw [processCandidate_attempt_eq env cas name st url u h]
        exact List.mem_cons_self _ _
      · exact List.mem_cons_of_mem _ (ih _ h)

/-! ### Behavior of download_and_verify_pdfs -/

theorem queriesOf_eq_nil (tr : List Event) (h : ∀ q, Event.searched q ∉ tr) :
    queriesOf tr = [] := by
  unfold queriesOf
  rw [List.filterMap_eq_nil_iff]
  intro e he
  cases e with
  | searched q => exact absurd he (h q)
  | skipped u => rfl
  | urlLimited u => rfl
  | domainLimited u => rfl
  | probed u b => rfl
  | fetchAttempt u => rfl
  | fetchBodyFail u p => rfl
  | fetched u p => rfl
  | promoted p n => rfl
  | deleted p => rfl
  | budgetStop => rfl

theorem dav_ok (env : Env) (cas name url : Option String) (st : ScoutState) :
    TraceOk st (download_and_verify_pdfs env cas name url st).1
      (download_and_verify_pdfs env cas name url st).2.1 := by
  unfold download_and_verify_pdfs
  cases hq : buildQuery cas name url with
  | none => exact traceOk_nil st
  | some q =>
    have hsingle : TraceOk st st [Event.searched q] :=
      traceOk_single_benign st _ (fun u => rfl) (fun d => rfl) rfl
        (fun u b => by simp) (fun u => by simp) (fun u p => by simp)
    exact traceOk_comp hsingle (runCandidates_ok env cas name (env.searchResults q) st)

theorem dav_dlEq (env : Env) (cas name url : Option String) (st : ScoutState) :
    (download_and_verify_pdfs env cas name url st).1.downloadedCount
      = st.downloadedCount
        + countFetched (download_and_verify_pdfs env cas name url st).2.1 := by
  unfold download_and_verify_pdfs
  cases hq : buildQuery cas name url with
  | none => simp [countFetched]
  | some q =>
    have h := runCandidates_dlEq env cas name (env.searchResults q) st
    simpa [countFetched, isFetched, List.countP_cons] using h

theorem dav_dlBound (env : Env) (cas name url : Option String) (st : ScoutState) :
    (download_and_verify_pdfs env cas name url st).1.downloadedCount
      ≤ max st.downloadedCount DOWNLOAD_LIMIT := by
  unfold download_and_verify_pdfs
  cases hq : buildQuery cas name url with
  | none => exact le_max_left _ _
  | some q => exact runCandidates_dlBound env cas name (env.searchResults q) st

theorem dav_vps_len (env : Env) (cas name url : Option String) (st : ScoutState) :
    (download_and_verify_pdfs env cas name url st).2.2.length
      = countPromoted (download_and_verify_pdfs env cas name url st).2.1 := by
  unfold download_and_verify_pdfs
  cases hq : buildQuery cas name url with
  | none => simp [countPromoted]
  | some q =>
    have h := runCandidates_vps_len env cas name (env.searchResults q) st
    simpa [countPromoted, isPromoted, List.countP_cons] using h

theorem dav_vps_shape (env : Env) (cas name url : Option String) (st : ScoutState) :
    ∀ p ∈ (download_and_verify_pdfs env cas name url st).2.2,
      ∃ b, p.2 = PDFS_FOLDER ++ "/" ++ b := by
  unfold download_and_verify_pdfs
  cases hq : buildQuery cas name url with
  | none => simp
  | some q => exact runCandidates_vps_shape env cas name (env.searchResults q) st

theorem dav_queries (env : Env) (cas name url : Option String) (st : ScoutState) :
    queriesOf (download_and_verify_pdfs env cas name url st).2.1
      = (buildQuery cas name url).toList := by
  unfold download_and_verify_pdfs
  cases hq : buildQuery cas name url with
  | none => simp [queriesOf]
  | some q =>
    have h := queriesOf_eq_nil (runCandidates env cas name st (env.searchResults q)).2.1
      (fun q' => runCandidates_searched_not_mem env cas name (env.searchResults q) st q')
    simp only [queriesOf, Option.toList, List.filterMap_cons]
    simpa [queriesOf] using h

theorem dav_attempts_from_search (env : Env) (cas name url : Option String)
    (st : ScoutState) (u : String)
    (hm : Event.fetchAttempt u ∈ (download_and_verify_pdfs env cas name url st).2.1) :
    ∃ q, Event.searched q ∈ (download_and_verify_pdfs env cas name url st).2.1
      ∧ u ∈ env.searchResults q := by
  revert hm
  unfold download_and_verify_pdfs
  cases hq : buildQuery cas name url with
  | none => intro hm; simp at hm
  | some q =>
    intro hm
    refine ⟨q, List.mem_cons_self _ _, ?_⟩
    rcases List.mem_cons.mp hm with h | h
    · exact absurd h.symm (by simp)
    · exact runCandidates_attempt_mem env cas name (env.searchResults q) st u h

/-! ### Report invariants and the entry-point levels -/

/-- The report facts that compose across sequencing: one entry per promoted
document, every entry verified and filed under the persistent folder. -/
def ReportOk (evs : List Event) (es : List ReportEntry) : Prop :=
  es.length = countPromoted evs
  ∧ ∀ e ∈ es, e.verified = true ∧ ∃ b, e.filepath = PDFS_FOLDER ++ "/" ++ b

theorem entriesOf_report (cas name : Option String) (vps : List (String × String))
    (evs : List Event) (hlen : vps.length = countPromoted evs)
    (hshape : ∀ p ∈ vps, ∃ b, p.2 = PDFS_FOLDER ++ "/" ++ b) :
    ReportOk evs (entriesOf cas name vps) := by
  constructor
  · simpa [entriesOf] using hlen
  · intro e he
    obtain ⟨p, hp, hpe⟩ := List.mem_map.mp he
    subst hpe
    exact ⟨rfl, hshape p hp⟩

theorem reportOk_comp {e1 e2 : List Event} {r1 r2 : List ReportEntry}
    (h1 : ReportOk e1 r1) (h2 : ReportOk e2 r2) :
    ReportOk (e1 ++ e2) (r1 ++ r2) := by
  obtain ⟨hl1, hm1⟩ := h1
  obtain ⟨hl2, hm2⟩ := h2
  refine ⟨?_, ?_⟩
  · simp only [List.length_append, countPromoted, List.countP_append] at hl1 hl2 ⊢
    omega
  · intro e he
    rcases List.mem_append.mp he with h | h
    · exact hm1 e h
    · exact hm2 e h

theorem reportOk_nil : ReportOk [] [] := by
  exact ⟨rfl, by simp⟩

/-! ### Behavior of the urls branch of main -/

theorem runUrlList_ok (env : Env) (cas name : Option String)
    (l : List String) (st : ScoutState) :
    TraceOk st (runUrlList env cas name st l).1 (runUrlList env cas name st l).2.1 := by
  induction l generalizing st with
  | nil => exact traceOk_nil st
  | cons u rest ih =>
    simp only [runUrlList]
    exact traceOk_comp (dav_ok env cas name (some u) st) (ih _)

theorem runUrlList_dlEq (env : Env) (cas name : Option String)
    (l : List String) (st : ScoutState) :
    (runUrlList env cas name st l).1.downloadedCount
      = st.downloadedCount + countFetched (runUrlList env cas name st l).2.1 := by
  induction l generalizing st with
  | nil => simp [runUrlList, countFetched]
  | cons u rest ih =>
    simp only [runUrlList]
    have h1 := dav_dlEq env cas name (some u) st
    have h2 := ih (download_and_verify_pdfs env cas name (some u) st).1
    simp only [countFetched, List.countP_append] at h1 h2 ⊢
    omega

theorem runUrlList_dlBound (env : Env) (cas name : Option String)
    (l : List String) (st : ScoutState) :
    (runUrlList env cas name st l).1.downloadedCount
      ≤ max st.downloadedCount DOWNLOAD_LIMIT := by
  induction l generalizing st with
  | nil => exact le_max_left _ _
  | cons u rest ih =>
    simp only [runUrlList]
    exact max_chain (dav_dlBound env cas name (some u) st)
      (ih (download_and_verify_pdfs env cas name (some u) st).1)

theorem runUrlList_report (env : Env) (cas name : Option String)
    (l : List String) (st : ScoutState) :
    ReportOk (runUrlList env cas name st l).2.1 (runUrlList env cas name st l).2.2 := by
  induction l generalizing st with
  | nil => exact reportOk_nil
  | cons u rest ih =>
    simp only [runUrlList]
    exact reportOk_comp
      (entriesOf_report cas name _ _ (dav_vps_len env cas name (some u) st)
        (dav_vps_shape env cas name (some u) st))
      (ih _)

theorem runUrlList_queries (env : Env) (cas name : Option String)
    (l : List String) (st : ScoutState) :
    queriesOf (runUrlList env cas name st l).2.1
      = l.filterMap (fun u => buildQuery cas name (some u)) := by
  induction l generalizing st with
  | nil => simp [runUrlList, queriesOf]
  | cons u rest ih =>
    simp only [runUrlList, queriesOf, List.filterMap_append, List.filterMap_cons]
    have h1 := dav_queries env cas name (some u) st
    have h2 := ih (download_and_verify_pdfs env cas name (some u) st).1
    simp only [queriesOf] at h1 h2
    rw [h1, h2]
    cases buildQuery cas name (some u) <;> simp [Option.toList]

theorem runUrlList_attempts_from_search (env : Env) (cas name : Option String)
    (l : List String) (st : ScoutState) (u : String)
    (hm : Event.fetchAttempt u ∈ (runUrlList env cas name st l).2.1) :
    ∃ q, Event.searched q ∈ (runUrlList env cas name st l).2.1
      ∧ u ∈ env.searchResults q := by
  induction l generalizing st with
  | nil => simp [runUrlList] at hm
  | cons v rest ih =>
    simp only [runUrlList] at hm ⊢
    rcases List.mem_append.mp hm with h | h
    · obtain ⟨q, hq, hu⟩ := dav_attempts_from_search env cas name (some v) st u h
      exact ⟨q, List.mem_append_left _ hq, hu⟩
    · obtain ⟨q, hq, hu⟩ := ih _ h
      exact ⟨q, List.mem_append_right _ hq, hu⟩

/-! ### Behavior of one request -/

theorem runRequest_ok (env : Env) (st : ScoutState) (req : Request) :
    TraceOk st (runRequest env st req).1 (runRequest env st req).2.1 := by
  unfold runRequest
  by_cases hu : truthyL req.urls = true
  · simp only [hu, if_true]
    exact runUrlList_ok env req.cas req.name _ st
  · simp only [hu, Bool.false_eq_true, if_false]
    by_cases hcn : (truthyS req.cas || truthyS req.name) = true
    · simp only [hcn, if_true]
      exact dav_ok env req.cas req.name none st
    · simp only [hcn, Bool.false_eq_true, if_false]
      exact traceOk_nil st

theorem runRequest_dlEq (env : Env) (st : ScoutState) (req : Request) :
    (runRequest env st req).1.downloadedCount
      = st.downloadedCount + countFetched (runRequest env st req).2.1 := by
  unfold runRequest
  by_cases hu : truthyL req.urls = true
  · simp only [hu, if_true]
    exact runUrlList_dlEq env req.cas req.name _ st
  · simp only [hu, Bool.false_eq_true, if_false]
    by_cases hcn : (truthyS req.cas || truthyS req.name) = true
    · simp only [hcn, if_true]
      exact dav_dlEq env req.cas req.name none st
    · simp only [hcn, Bool.false_eq_true, if_false]
      simp [countFetched]

theorem runRequest_dlBound (env : Env) (st : ScoutState) (req : Request) :
    (runRequest env st req).1.downloadedCount
      ≤ max st.downloadedCount DOWNLOAD_LIMIT := by
  unfold runRequest
  by_cases hu : truthyL req.urls = true
  · simp only [hu, if_true]
    exact runUrlList_dlBound env req.cas req.name _ st
  · simp only [hu, Bool.false_eq_true, if_false]
    by_cases hcn : (truthyS req.cas || truthyS req.name) = true
    · simp only [hcn, if_true]
      exact dav_dlBound env req.cas req.name none st
    · simp only [hcn, Bool.false_eq_true, if_false]
      exact le_max_left _ _

theorem runRequest_report (env : Env) (st : ScoutState) (req : Request) :
    ReportOk (runRequest env st req).2.1 (runRequest env st req).2.2 := by
  unfold runRequest
  by_cases hu : truthyL req.urls = true
  · simp only [hu, if_true]
    exact runUrlList_report env req.cas req.name _ st
  · simp only [hu, Bool.false_eq_true, if_false]
    by_cases hcn : (truthyS req.cas || truthyS req.name) = true
    · simp only [hcn, if_true]
      exact entriesOf_report req.cas req.name _ _
        (dav_vps_len env req.cas req.name none st)
        (dav_vps_shape env req.cas req.name none st)
    · simp only [hcn, Bool.false_eq_true, if_false]
      exact reportOk_nil

theorem runRequest_attempts_from_search (env : Env) (st : ScoutState)
    (req : Request) (u : String)
    (hm : Event.fetchAttempt u ∈ (runRequest env st req).2.1) :
    ∃ q, Event.searched q ∈ (runRequest env st req).2.1
      ∧ u ∈ env.searchResults q := by
  revert hm
  unfold runRequest
  by_cases hu : truthyL req.urls = true
  · simp only [hu, if_true]
    exact runUrlList_attempts_from_search env req.cas req.name _ st u
  · simp only [hu, Bool.false_eq_true, if_false]
    by_cases hcn : (truthyS req.cas || truthyS req.name) = true
    · simp only [hcn, if_true]
      exact dav_attempts_from_search env req.cas req.name none st u
    · simp only [hcn, Bool.false_eq_true, if_false]
      intro hm
      simp at hm

/-! ### Behavior of the request loop, main, and a process lifetime -/

theorem runRequests_ok (env : Env) (input : List Request) (st : ScoutState) :
    TraceOk st (runRequests env st input).1 (runRequests env st input).2.1 := by
  induction input generalizing st with
  | nil => exact traceOk_nil st
  | cons r rest ih =>
    simp only [runRequests]
    exact traceOk_comp (runRequest_ok env st r) (ih _)

theorem runRequests_dlEq (env : Env) (input : List Request) (st : ScoutState) :
    (runRequests env st input).1.downloadedCount
      = st.downloadedCount + countFetched (runRequests env st input).2.1 := by
  induction input generalizing st with
  | nil => simp [runRequests, countFetched]
  | cons r rest ih =>
    simp only [runRequests]
    have h1 := runRequest_dlEq env st r
    have h2 := ih (runRequest env st r).1
    simp only [countFetched, List.countP_append] at h1 h2 ⊢
    omega

theorem runRequests_dlBound (env : Env) (input : List Request) (st : ScoutState) :
    (runRequests env st input).1.downloadedCount
      ≤ max st.downloadedCount DOWNLOAD_LIMIT := by
  induction input generalizing st with
  | nil => exact le_max_left _ _
  | cons r rest ih =>
    simp only [runRequests]
    exact max_chain (runRequest_dlBound env st r) (ih _)

theorem runRequests_report (env : Env) (input : List Request) (st : ScoutState) :
    ReportOk (runRequests env st input).2.1 (runRequests env st input).2.2 := by
  induction input generalizing st with
  | nil => exact reportOk_nil
  | cons r rest ih =>
    simp only [runRequests]
    exact reportOk_comp (runRequest_report env st r) (ih _)

theorem mainRun_ok (env : Env) (st : ScoutState) (input : List Request) :
    TraceOk st (mainRun env st input).1 (mainRun env st input).2.1 :=
  runRequests_ok env input { st with downloadedCount := 0 }

theorem mainRun_fetched_le (env : Env) (st : ScoutState) (input : List Request) :
    countFetched (mainRun env st input).2.1 ≤ DOWNLOAD_LIMIT
      ∧ (mainRun env st input).1.downloadedCount ≤ DOWNLOAD_LIMIT := by
  have h1 := runRequests_dlEq env input { st with downloadedCount := 0 }
  have h2 := runRequests_dlBound env input { st with downloadedCount := 0 }
  unfold mainRun
  constructor
  · simp only [max_eq_right (Nat.zero_le DOWNLOAD_LIMIT)] at h2
    omega
  · simp only [max_eq_right (Nat.zero_le DOWNLOAD_LIMIT)] at h2
    exact h2

theorem mainRun_report (env : Env) (st : ScoutState) (input : List Request) :
    ReportOk (mainRun env st input).2.1 (mainRun env st input).2.2 :=
  runRequests_report env input { st with downloadedCount := 0 }

theorem processRun_ok (env : Env) (runs : List (List Request)) (st : ScoutState) :
    TraceOk st (processRun env st runs).1 (processRun env st runs).2 := by
  induction runs generalizing st with
  | nil => exact traceOk_nil st
  | cons input rest ih =>
    simp only [processRun]
    exact traceOk_comp (mainRun_ok env st input) (ih _)

theorem processRun_append (env : Env) (a b : List (List Request)) (st : ScoutState) :
    processRun env st (a ++ b)
      = ((processRun env (processRun env st a).1 b).1,
         (processRun env st a).2 ++ (processRun env (processRun env st a).1 b).2) := by
  induction a generalizing st with
  | nil => simp [processRun]
  | cons x t ih =>
    rw [List.cons_append]
    simp only [processRun]
    rw [ih ((mainRun env st x).1)]
    simp [List.append_assoc]

theorem processRun_append_fst (env : Env) (a b : List (List Request)) (st : ScoutState) :
    (processRun env st (a ++ b)).1 = (processRun env (processRun env st a).1 b).1 := by
  rw [processRun_append]

theorem filterMap_guard_nonempty (l : List String) :
    l.filterMap (fun u => if u != "" then some u else none)
      = l.filter (fun u => u != "") := by
  induction l with
  | nil => rfl
  | cons a t ih =>
    by_cases ha : a = ""
    · subst ha
      simp only [List.filterMap_cons, List.filter_cons]
      simp only [bne_self_eq_false, Bool.false_eq_true, if_false, reduceIte]
      exact ih
    · simp only [List.filterMap_cons, List.filter_cons]
      have hb : (a != "") = true := by simp [ha]
      simp only [hb, if_true]
      rw [ih]

/-! ### Concrete oracles used by the witnesses and counterexamples -/

/-- An oracle where every collaborator fails or returns nothing. -/
def envNull : Env :=
  ⟨fun _ => [], fun _ => HeadResult.err, fun _ => GetResult.err, fun _ => none⟩

/-- An oracle whose search yields six pdf-suffixed candidates on six distinct
domains, while every GET returns a non-pdf content type, so every download
attempt fails and the download counter never moves. -/
def envManyFailures : Env :=
  ⟨fun _ => ["p://a1.aa/x.pdf", "p://a2.aa/x.pdf", "p://a3.aa/x.pdf",
             "p://a4.aa/x.pdf", "p://a5.aa/x.pdf", "p://a6.aa/x.pdf"],
   fun _ => HeadResult.err, fun _ => GetResult.ok (some "text/html") true, fun _ => none⟩

/-- An oracle where one candidate downloads as a genuine PDF whose extracted
text satisfies the verifier for the CAS number 50-00-0. -/
def envPromote : Env :=
  ⟨fun _ => ["p://a.b/x.pdf"], fun _ => HeadResult.err,
   fun _ => GetResult.ok (some "application/pdf") true,
   fun fp => if fp == "unverified/x.pdf" then some "safety data sheet 50-00-0" else none⟩

/-- An oracle where the one candidate's GET declares a pdf content type but
the body read fails mid-transfer, leaving an orphan temporary file. -/
def envBodyFail : Env :=
  ⟨fun _ => ["p://a.b/x.pdf"], fun _ => HeadResult.err,
   fun _ => GetResult.ok (some "application/pdf") false, fun _ => none⟩

/-- An oracle with no network behavior beyond a text extractor for one file. -/
def envVerify : Env :=
  ⟨fun _ => [], fun _ => HeadResult.err, fun _ => GetResult.err,
   fun fp => if fp == "unverified/acetone.pdf" then
      some "Safety Data Sheet - Acetone CAS 67-64-1" else none⟩

/-- An oracle whose search yields one candidate that matches the skip list. -/
def envSkip : Env :=
  ⟨fun _ => ["p://a.b/login.pdf"], fun _ => HeadResult.err,
   fun _ => GetResult.err, fun _ => none⟩

/-- An oracle whose HEAD probe always reports the content type text/html. -/
def envHeadHtml : Env :=
  ⟨fun _ => [], fun _ => HeadResult.ok (some "text/html"),
   fun _ => GetResult.err, fun _ => none⟩

/-! ### Claim theorems -/

/-- C1: verification succeeds if and only if every required pattern matches
the extracted text - the mandatory phrase safety data sheet, plus the CAS
number if one was supplied, plus the name if one was supplied, each as a
whole-word case-insensitive match, combined by logical AND. -/
theorem verify_pdf_iff_all_patterns (env : Env) (fp : String)
    (cas name : Option String) (text : String)
    (hx : env.extract fp = some text) :
    verify_pdf env fp cas name = true ↔
      (wordSearch "safety data sheet" text = true
       ∧ (truthyS cas = true → wordSearch (cas.getD "") text = true)
       ∧ (truthyS name = true → wordSearch (name.getD "") text = true)) := by
  unfold verify_pdf
  rw [hx]
  unfold verifyText requiredPatterns
  cases hc : truthyS cas <;> cases hn : truthyS name <;>
    simp [hc, hn, List.all_append]

theorem verify_pdf_iff_all_patterns_witness :
    verify_pdf envVerify "unverified/acetone.pdf" (some "67-64-1")
        (some "Acetone") = true ↔
      (wordSearch "safety data sheet" "Safety Data Sheet - Acetone CAS 67-64-1" = true
       ∧ (truthyS (some "67-64-1") = true →
            wordSearch "67-64-1" "Safety Data Sheet - Acetone CAS 67-64-1" = true)
       ∧ (truthyS (some "Acetone") = true →
            wordSearch "Acetone" "Safety Data Sheet - Acetone CAS 67-64-1" = true)) :=
  verify_pdf_iff_all_patterns envVerify "unverified/acetone.pdf" (some "67-64-1")
    (some "Acetone") "Safety Data Sheet - Acetone CAS 67-64-1" (by decide)

/-- C2 counterexample: fetch attempts are not bounded by the download limit.
With six searchable candidates whose downloads all fail the content-type
check, one invocation of main performs six fetch attempts, exceeding the
configured limit of five, because the counter moves only on success. -/
theorem fetch_attempts_can_exceed_limit_cex :
    ¬ (totalFetchAttempts (mainRun envManyFailures initState
        [⟨some "50-00-0", none, none⟩]).2.1 ≤ DOWNLOAD_LIMIT) := by decide

/-- C2 amended: within one top-level invocation of main, the number of
successful downloads (fetch attempts that actually store a PDF and advance
the global counter) never exceeds the configured download limit of five, for
every input and every sequence of search results. -/
theorem successful_downloads_le_limit (env : Env) (st : ScoutState)
    (input : List Request) :
    countFetched (mainRun env st input).2.1 ≤ DOWNLOAD_LIMIT :=
  (mainRun_fetched_le env st input).1

/-- C3 counterexample: an explicit URL does not bypass the search stage.
With a request carrying only a urls list and a search collaborator that
returns no results, the listed URL is submitted verbatim as the search query
and is never fetched. -/
theorem explicit_url_submitted_as_query_cex :
    queriesOf (mainRun envNull initState
        [⟨none, none, some ["p://a.b/x.pdf"]⟩]).2.1 = ["p://a.b/x.pdf"]
    ∧ totalFetchAttempts (mainRun envNull initState
        [⟨none, none, some ["p://a.b/x.pdf"]⟩]).2.1 = 0 :=
  ⟨by decide, by decide⟩

/-- C3 amended: explicit URLs are never fetched directly. For a record whose
cas and name are absent, each nonempty listed URL is submitted to the search
collaborator as the query string, and every fetch attempt of the pass targets
a URL returned by the search collaborator for some submitted query. -/
theorem explicit_urls_are_search_queries (env : Env) (st : ScoutState)
    (cas name : Option String) (urls : Option (List String))
    (hc : truthyS cas = false) (hn : truthyS name = false)
    (hu : truthyL urls = true) :
    queriesOf (runRequest env st ⟨cas, name, urls⟩).2.1
      = (urls.getD []).filter (fun u => u != "")
    ∧ (∀ u, Event.fetchAttempt u ∈ (runRequest env st ⟨cas, name, urls⟩).2.1 →
        ∃ q, Event.searched q ∈ (runRequest env st ⟨cas, name, urls⟩).2.1
          ∧ u ∈ env.searchResults q) := by
  constructor
  · unfold runRequest
    simp only [hu, if_true]
    rw [runUrlList_queries]
    have hb : (fun u => buildQuery cas name (some u))
        = (fun u : String => if u != "" then some u else none) := by
      funext u
      unfold buildQuery
      simp only [hc, hn, Bool.false_eq_true, if_false]
      simp [truthyS]
    rw [hb, filterMap_guard_nonempty]
  · exact fun u => runRequest_attempts_from_search env st ⟨cas, name, urls⟩ u

theorem explicit_urls_are_search_queries_witness :
    queriesOf (runRequest envNull initState
        ⟨none, none, some ["p://a.b/x.pdf", ""]⟩).2.1
      = ((some ["p://a.b/x.pdf", ""] : Option (List String)).getD []).filter
          (fun u => u != "")
    ∧ (∀ u, Event.fetchAttempt u ∈ (runRequest envNull initState
          ⟨none, none, some ["p://a.b/x.pdf", ""]⟩).2.1 →
        ∃ q, Event.searched q ∈ (runRequest envNull initState
            ⟨none, none, some ["p://a.b/x.pdf", ""]⟩).2.1
          ∧ u ∈ envNull.searchResults q) :=
  explicit_urls_are_search_queries envNull initState none none
    (some ["p://a.b/x.pdf", ""]) (by decide) (by decide) (by decide)

/-- C4: across a process lifetime starting from the empty module state, no
single URL is fetched more than five times and no single domain is fetched
more than five times; each visit counter is monotonically non-decreasing
across invocations and never exceeds five. -/
theorem visit_budgets_process_lifetime (env : Env)
    (runs1 runs2 : List (List Request)) (u d : String) :
    fetchAttemptsFor u (processRun env initState (runs1 ++ runs2)).2 ≤ 5
    ∧ domAttemptsFor d (processRun env initState (runs1 ++ runs2)).2 ≤ 5
    ∧ lookupCount (processRun env initState runs1).1.urlVisits u
        ≤ lookupCount (processRun env initState (runs1 ++ runs2)).1.urlVisits u
    ∧ lookupCount (processRun env initState (runs1 ++ runs2)).1.urlVisits u ≤ 5
    ∧ lookupCount (processRun env initState runs1).1.domainVisits d
        ≤ lookupCount (processRun env initState (runs1 ++ runs2)).1.domainVisits d
    ∧ lookupCount (processRun env initState (runs1 ++ runs2)).1.domainVisits d ≤ 5 := by
  obtain ⟨ha, hb, hc, hd, -, -, -, -, -⟩ := processRun_ok env (runs1 ++ runs2) initState
  have hinitU : lookupCount initState.urlVisits u = 0 := rfl
  have hinitD : lookupCount initState.domainVisits d = 0 := rfl
  have h4 : lookupCount (processRun env initState (runs1 ++ runs2)).1.urlVisits u ≤ 5 := by
    have := hc u
    rw [hinitU, max_eq_right (Nat.zero_le 5)] at this
    exact this
  have h6 : lookupCount (processRun env initState (runs1 ++ runs2)).1.domainVisits d ≤ 5 := by
    have := hd d
    rw [hinitD, max_eq_right (Nat.zero_le 5)] at this
    exact this
  refine ⟨?_, ?_, ?_, h4, ?_, h6⟩
  · have := ha u; omega
  · have := hb d; omega
  · rw [processRun_append_fst]
    obtain ⟨ha2, -, -, -, -, -, -, -, -⟩ :=
      processRun_ok env runs2 (processRun env initState runs1).1
    have := ha2 u
    omega
  · rw [processRun_append_fst]
    obtain ⟨-, hb2, -, -, -, -, -, -, -⟩ :=
      processRun_ok env runs2 (processRun env initState runs1).1
    have := hb2 d
    omega

/-- C5: the budget-admission step. For a candidate past the skip filter, if
the URL visit count or the domain visit count is at or above the ceiling of
five, the candidate is rejected with no state change, it is not probed, and
no fetch is attempted; otherwise both counters are incremented by exactly
one, every other counter is unchanged, and the candidate is probed. -/
theorem budget_admission_step (env : Env) (cas name : Option String)
    (st : ScoutState) (url : String) (hskip : skipMatch url = false) :
    ((MAX_URL_VISITS ≤ lookupCount st.urlVisits url
        ∨ MAX_DOMAIN_VISITS ≤ lookupCount st.domainVisits (netlocOf url)) →
      (processCandidate env cas name st url).1 = st
      ∧ (∀ b, Event.probed url b ∉ (processCandidate env cas name st url).2.1)
      ∧ Event.fetchAttempt url ∉ (processCandidate env cas name st url).2.1)
    ∧ (lookupCount st.urlVisits url < MAX_URL_VISITS →
       lookupCount st.domainVisits (netlocOf url) < MAX_DOMAIN_VISITS →
      lookupCount (processCandidate env cas name st url).1.urlVisits url
        = lookupCount st.urlVisits url + 1
      ∧ lookupCount (processCandidate env cas name st url).1.domainVisits (netlocOf url)
        = lookupCount st.domainVisits (netlocOf url) + 1
      ∧ (∀ k, k ≠ url →
          lookupCount (processCandidate env cas name st url).1.urlVisits k
            = lookupCount st.urlVisits k)
      ∧ (∀ k, k ≠ netlocOf url →
          lookupCount (processCandidate env cas name st url).1.domainVisits k
            = lookupCount st.domainVisits k)
      ∧ Event.probed url (is_pdf env url)
          ∈ (processCandidate env cas name st url).2.1) := by
  constructor
  · intro hge
    unfold processCandidate
    simp only [hskip, Bool.false_eq_true, if_false]
    cases hul : dictMem st.urlVisits url
        && decide (MAX_URL_VISITS ≤ lookupCount st.urlVisits url) with
    | true =>
      simp only [if_true]
      exact ⟨by trivial, by simp, by simp⟩
    | false =>
      have hdom : MAX_DOMAIN_VISITS ≤ lookupCount st.domainVisits (netlocOf url) := by
        rcases hge with h | h
        · exfalso
          have := lt_of_not_limited st.urlVisits url MAX_URL_VISITS (by decide) hul
          omega
        · exact h
      have hdomc : (dictMem st.domainVisits (netlocOf url)
          && decide (MAX_DOMAIN_VISITS
              ≤ lookupCount st.domainVisits (netlocOf url))) = true := by
        have hmem : dictMem st.domainVisits (netlocOf url) = true := by
          apply dictMem_of_lookup_pos
          have h5 : (0:Nat) < MAX_DOMAIN_VISITS := by decide
          omega
        rw [hmem, Bool.true_and, decide_eq_true_iff]
        exact hdom
      simp only [Bool.false_eq_true, if_false, hdomc, if_true]
      exact ⟨by trivial, by simp, by simp⟩
  · intro hlt1 hlt2
    unfold processCandidate
    simp only [hskip, Bool.false_eq_true, if_false,
      limited_false_of_lt st.urlVisits url MAX_URL_VISITS hlt1,
      limited_false_of_lt st.domainVisits (netlocOf url) MAX_DOMAIN_VISITS hlt2]
    refine ⟨?_, ?_, ?_, ?_, probeFetch_probed_self env cas name _ url⟩
    · rw [probeFetch_urlVisits, lookupCount_setCount_self]
    · rw [probeFetch_domainVisits, lookupCount_setCount_self]
    · intro k hk
      rw [probeFetch_urlVisits, lookupCount_setCount_ne _ _ _ _ hk]
    · intro k hk
      rw [probeFetch_domainVisits, lookupCount_setCount_ne _ _ _ _ hk]

theorem budget_admission_step_witness :
    lookupCount (processCandidate envNull none none initState
        "p://a.b/x.pdf").1.urlVisits "p://a.b/x.pdf"
      = lookupCount initState.urlVisits "p://a.b/x.pdf" + 1
    ∧ lookupCount (processCandidate envNull none none initState
        "p://a.b/x.pdf").1.domainVisits (netlocOf "p://a.b/x.pdf")
      = lookupCount initState.domainVisits (netlocOf "p://a.b/x.pdf") + 1
    ∧ (∀ k, k ≠ "p://a.b/x.pdf" →
        lookupCount (processCandidate envNull none none initState
          "p://a.b/x.pdf").1.urlVisits k = lookupCount initState.urlVisits k)
    ∧ (∀ k, k ≠ netlocOf "p://a.b/x.pdf" →
        lookupCount (processCandidate envNull none none initState
          "p://a.b/x.pdf").1.domainVisits k = lookupCount initState.domainVisits k)
    ∧ Event.probed "p://a.b/x.pdf" (is_pdf envNull "p://a.b/x.pdf")
        ∈ (processCandidate envNull none none initState "p://a.b/x.pdf").2.1 :=
  (budget_admission_step envNull none none initState "p://a.b/x.pdf"
    (by decide)).2 (by decide) (by decide)

/-- C6: a candidate URL whose parsed domain or whose full URL string
contains a skip-list substring is never probed, never has a fetch attempted,
and never downloads, in any run from any starting state. -/
theorem skiplist_never_probed_or_fetched (env : Env) (st : ScoutState)
    (runs : List (List Request)) (u : String) (h : skipMatch u = true) :
    (∀ b, Event.probed u b ∉ (processRun env st runs).2)
    ∧ Event.fetchAttempt u ∉ (processRun env st runs).2
    ∧ (∀ p, Event.fetched u p ∉ (processRun env st runs).2) := by
  obtain ⟨-, -, -, -, -, -, hp, ha, hf⟩ := processRun_ok env runs st
  refine ⟨fun b hm => ?_, fun hm => ?_, fun p hm => ?_⟩
  · have := hp u b hm
    simp [this] at h
  · have := ha u hm
    simp [this] at h
  · have := hf u p hm
    simp [this] at h

theorem skiplist_never_probed_or_fetched_witness :
    (∀ b, Event.probed "p://a.b/login.pdf" b
        ∉ (processRun envSkip initState [[⟨some "50-00-0", none, none⟩]]).2)
    ∧ Event.fetchAttempt "p://a.b/login.pdf"
        ∉ (processRun envSkip initState [[⟨some "50-00-0", none, none⟩]]).2
    ∧ (∀ p, Event.fetched "p://a.b/login.pdf" p
        ∉ (processRun envSkip initState [[⟨some "50-00-0", none, none⟩]]).2) :=
  skiplist_never_probed_or_fetched envSkip initState
    [[⟨some "50-00-0", none, none⟩]] "p://a.b/login.pdf" (by decide)

/-- C7 counterexample: a temporary file for an unverified document can
remain after an invocation. The source opens the temporary file before
awaiting the response body, so a GET that declares a pdf content type and
then fails during the body read leaves an empty file in the temporary
folder; starting from empty storage, the invocation ends with the orphan
unverified/x.pdf still present, and the trace shows the download was neither
promoted nor deleted (no promotion or deletion event occurs at all). -/
theorem temp_file_left_by_body_failure_cex :
    (mainRun envBodyFail initState [⟨some "50-00-0", none, none⟩]).1.tempFiles
      = ["unverified/x.pdf"]
    ∧ (mainRun envBodyFail initState [⟨some "50-00-0", none, none⟩]).2.1
      = [Event.searched "\"50-00-0\" filetype:pdf",
         Event.probed "p://a.b/x.pdf" true,
         Event.fetchAttempt "p://a.b/x.pdf",
         Event.fetchBodyFail "p://a.b/x.pdf" "unverified/x.pdf"] :=
  ⟨by decide, by decide⟩

/-- C7 amended: every successfully completed download is immediately
resolved by exactly one of promotion or deletion, never both; and after an
invocation of main, every temporary file that remains and was not present
initially is an orphan created by a download whose body read failed after
the file was opened. -/
theorem download_lifecycle_exactly_one (env : Env) (st : ScoutState)
    (input : List Request) :
    (mainRun env st input).1.tempFiles
      ⊆ st.tempFiles ++ orphanPaths (mainRun env st input).2.1
    ∧ wellPaired (mainRun env st input).2.1 = true := by
  obtain ⟨-, -, -, -, htmp, hpair, -, -, -⟩ := mainRun_ok env st input
  exact ⟨htmp, by simp [wellPaired, hpair]⟩

/-- C8 counterexample: the fast path of is_pdf tests the full URL string,
not the URL path. A URL whose query string ends in the pdf suffix is
classified as a PDF without any probe, while the prober the claim describes
(path-based fast path, with a HEAD reporting text/html) rejects it. -/
theorem is_pdf_full_url_suffix_cex :
    is_pdf envHeadHtml "p://a.b/x?q=.pdf" = true
    ∧ strEndsWith (pathOf "p://a.b/x?q=.pdf") ".pdf" = false
    ∧ looksLikePdfSpec envHeadHtml "p://a.b/x?q=.pdf" = false := by decide

/-- C8 amended: the prober is total and fail-closed; it returns true exactly
when the full URL string ends with the pdf suffix, or when the HEAD request
reports a content type equal to application/pdf; every transport error or
timeout yields false. -/
theorem is_pdf_iff_suffix_or_content_type (env : Env) (url : String) :
    is_pdf env url = true ↔
      (strEndsWith url ".pdf" = true
        ∨ env.head url = HeadResult.ok (some "application/pdf")) := by
  unfold is_pdf
  by_cases he : strEndsWith url ".pdf" = true
  · simp [he]
  · cases hh : env.head url with
    | err => simp [he, hh]
    | ok ct => simp [he, hh]

/-- C9: when a request supplies a urls list, the query of each pass is built
from the cas if truthy, else from the name if truthy, and only with both
absent does the listed URL itself become the query; so for records carrying
a cas or name every listed URL triggers a search pass whose query ignores
that URL. -/
theorem urls_branch_query_construction (env : Env) (st : ScoutState)
    (req : Request) (hu : truthyL req.urls = true) :
    queriesOf (runRequest env st req).2.1
      = (req.urls.getD []).filterMap (fun u =>
          if truthyS req.cas then
            some ("\"" ++ req.cas.getD "" ++ "\" filetype:pdf")
          else if truthyS req.name then
            some ("\"" ++ req.name.getD "" ++ "\" \"safety data sheet\" filetype:pdf")
          else if truthyS (some u) then some u else none) := by
  unfold runRequest
  simp only [hu, if_true]
  rw [runUrlList_queries]
  rfl

theorem urls_branch_query_construction_witness :
    queriesOf (runRequest envNull initState
        ⟨some "50-00-0", none, some ["p://a.b/x.pdf", "p://c.d/y.pdf"]⟩).2.1
      = ((some ["p://a.b/x.pdf", "p://c.d/y.pdf"] : Option (List String)).getD
          []).filterMap (fun u =>
          if truthyS (some "50-00-0") then
            some ("\"" ++ (some "50-00-0").getD "" ++ "\" filetype:pdf")
          else if truthyS (none : Option String) then
            some ("\"" ++ (none : Option String).getD ""
              ++ "\" \"safety data sheet\" filetype:pdf")
          else if truthyS (some u) then some u else none) :=
  urls_branch_query_construction envNull initState
    ⟨some "50-00-0", none, some ["p://a.b/x.pdf", "p://c.d/y.pdf"]⟩ (by decide)

/-- C10: every entry of the report returned by an invocation of main has its
verified flag true and a filepath inside the persistent folder, and the
number of entries equals the number of promotions of the invocation, so
failed candidates produce no entry and each verified document produces its
own entry. -/
theorem report_entries_verified_and_complete (env : Env) (st : ScoutState)
    (input : List Request) :
    (∀ e ∈ (mainRun env st input).2.2,
      e.verified = true ∧ ∃ b, e.filepath = PDFS_FOLDER ++ "/" ++ b)
    ∧ (mainRun env st input).2.2.length
        = countPromoted (mainRun env st input).2.1 := by
  obtain ⟨hlen, hmem⟩ := mainRun_report env st input
  exact ⟨hmem, hlen⟩

theorem report_entries_verified_and_complete_witness :
    (⟨some "50-00-0", none, "p://a.b/x.pdf", true, "verified/x.pdf",
        "p://a.b/x.pdf"⟩ : ReportEntry).verified = true
    ∧ ∃ b, (⟨some "50-00-0", none, "p://a.b/x.pdf", true, "verified/x.pdf",
        "p://a.b/x.pdf"⟩ : ReportEntry).filepath = PDFS_FOLDER ++ "/" ++ b :=
  (report_entries_verified_and_complete envPromote initState
    [⟨some "50-00-0", none, none⟩]).1
    ⟨some "50-00-0", none, "p://a.b/x.pdf", true, "verified/x.pdf", "p://a.b/x.pdf"⟩
    (by decide)

end Scout
